import Mathlib

/-
Verification development for the BlurViewer image viewer.

The repository contains two near-duplicate implementations of the same
viewport/animation engine:
  * `BlurViewer.py`          (class `BlurViewer`)        — modelled in namespace `BlurViewer`
  * `BlurViewer_Optimized.py`(class `OptimizedImageViewer`) — modelled in namespace
    `OptimizedImageViewer`, plus its `ImageCache` LRU cache.

Modelling conventions (shallow embedding):
  * Python floats are modelled as exact rationals (`ℚ`); the claims under study are
    algebraic/structural, Python float rounding is not what they are about.
  * `QPointF` is the structure `Pt`; `QPixmap` is abstracted to its dimensions (`Pix`);
    a null pixmap / absent movie is `Option.none`.
  * File-system paths are opaque keys, modelled as `ℕ`.
  * Screen geometry (`QApplication.primaryScreen().geometry()` /
    `.availableGeometry()`) is environment data carried in immutable state fields.
  * Mutation of `self` becomes explicit state passing; each `animate` tick is a pure
    function `State → State × Bool`, the `Bool` being the coalesced repaint request
    (`needs_update` / `schedule_update`).
  * `QTimer.singleShot(.., quit)` issued by `close_application` is modelled by the
    counter `exit_requests` (number of delayed exit requests issued so far).
  * The asynchronous image loader is modelled by the field `load_request`
    (the path handed to the most recently started `ImageLoader`, if any) plus the
    counter `loads_started`; delivery of its result is outside the sequential model.
-/

namespace BlurSpec

/-- A 2D point with rational coordinates (models `QPointF`). -/
structure Pt where
  x : ℚ
  y : ℚ
deriving DecidableEq

/-- Pointwise addition of points (models `QPointF.__add__`). -/
def ptAdd (p q : Pt) : Pt := ⟨p.x + q.x, p.y + q.y⟩

/-- Pointwise subtraction of points. -/
def ptSub (p q : Pt) : Pt := ⟨p.x - q.x, p.y - q.y⟩

/-- Scaling of a point by a scalar (models `QPointF * float`). -/
def ptScale (c : ℚ) (p : Pt) : Pt := ⟨c * p.x, c * p.y⟩

/-- The zero point. -/
def ptZero : Pt := ⟨0, 0⟩

/-- A raster image abstracted to its pixel dimensions (models a non-null `QPixmap`). -/
structure Pix where
  w : ℚ
  h : ℚ
deriving DecidableEq

end BlurSpec

namespace BlurSpec

/-! ## The LRU image cache of `BlurViewer_Optimized.py` (`class ImageCache`)

`self.cache` is a Python dict keyed by path; only lookup, pointwise update,
deletion and length are ever used on it, so it is modelled as an association
list with those operations. `self.access_order` is a Python list of paths. -/

/-- Dict lookup `self.cache[path]` / `path in self.cache` (keys are opaque paths). -/
def assocLookup {α : Type} : List (ℕ × α) → ℕ → Option α
  | [], _ => none
  | (k', v) :: rest, k => if k = k' then some v else assocLookup rest k

/-- Dict update of an existing key: `self.cache[path] = pixmap` when `path` is present. -/
def assocUpdate {α : Type} (l : List (ℕ × α)) (k : ℕ) (v : α) : List (ℕ × α) :=
  l.map (fun p => if p.1 = k then (k, v) else p)

/-- Dict deletion `del self.cache[lru_path]`. -/
def assocErase {α : Type} (l : List (ℕ × α)) (k : ℕ) : List (ℕ × α) :=
  l.filter (fun p => p.1 ≠ k)

/-- `class ImageCache` state: `max_size`, the dict `cache`, and the list `access_order`. -/
structure ImageCache (α : Type) where
  max_size : ℕ
  cache : List (ℕ × α)
  access_order : List ℕ
deriving DecidableEq

/-- `ImageCache.__init__(max_size)`: empty dict, empty access order. -/
def ImageCache.init (α : Type) (maxSize : ℕ) : ImageCache α :=
  ⟨maxSize, [], []⟩

/-- `ImageCache.get(path)`: on a hit, move `path` to the end of `access_order`
(most recently used) and return the pixmap; on a miss return `None`.
The returned pair is (Python return value, state after the call). -/
def ImageCache.get {α : Type} (c : ImageCache α) (path : ℕ) : Option α × ImageCache α :=
  match assocLookup c.cache path with
  | some v => (some v, { c with access_order := (c.access_order.erase path) ++ [path] })
  | none => (none, c)

/-- `ImageCache.put(path, pixmap)`: update an existing entry, or insert, evicting
the front of `access_order` (the least recently used path) when the dict is full.
The `access_order = []` eviction case is where Python's `access_order.pop(0)`
would raise `IndexError`; it is unreachable from a consistent state (the
invariant proved below gives `access_order` the same length as the dict, which
is `≥ max_size ≥ 1` in that branch) and is modelled as a no-op. -/
def ImageCache.put {α : Type} (c : ImageCache α) (path : ℕ) (v : α) : ImageCache α :=
  if (assocLookup c.cache path).isSome then
    { c with cache := assocUpdate c.cache path v,
             access_order := (c.access_order.erase path) ++ [path] }
  else if c.max_size ≤ c.cache.length then
    match c.access_order with
    | [] => c
    | lru :: rest =>
        { c with cache := (assocErase c.cache lru) ++ [(path, v)],
                 access_order := rest ++ [path] }
  else
    { c with cache := c.cache ++ [(path, v)],
             access_order := c.access_order ++ [path] }

/-- `ImageCache.clear()`. -/
def ImageCache.clear {α : Type} (c : ImageCache α) : ImageCache α :=
  { c with cache := [], access_order := [] }

/-- One operation on the cache: a `get` or a `put`. -/
inductive CacheOp (α : Type) where
  | get (path : ℕ)
  | put (path : ℕ) (v : α)
deriving DecidableEq

/-- Apply one cache operation (the return value of `get` is discarded). -/
def cacheStep {α : Type} (c : ImageCache α) : CacheOp α → ImageCache α
  | .get k => (c.get k).2
  | .put k v => c.put k v

/-- Run a sequence of cache operations from the empty cache. -/
def runCache (α : Type) (maxSize : ℕ) (ops : List (CacheOp α)) : ImageCache α :=
  ops.foldl cacheStep (ImageCache.init α maxSize)

/-- Accumulator step for `lastPut`: a `put` overrides the key's entry, a `get` is silent. -/
def lastPutStep {α : Type} (acc : ℕ → Option α) : CacheOp α → ℕ → Option α
  | .put k' v => fun x => if x = k' then some v else acc x
  | .get _ => acc

/-- The value most recently `put` for a key over an operation history (`none` if never put). -/
def lastPut {α : Type} (ops : List (CacheOp α)) (k : ℕ) : Option α :=
  (ops.foldl lastPutStep (fun _ => none)) k

end BlurSpec

namespace BlurSpec

/-! ### Touch-index annotation for the LRU property

To state "evicts the least recently used key" independently of `access_order`,
the run is annotated with the index of the last operation that *touched* each
key: every `put` touches its key, a `get` touches its key exactly when it hits
(a missing-key `get` returns early and does not reorder anything). -/

/-- The last-touch index of a key, defaulting to 0 for never-touched keys. -/
def touchIdx (m : ℕ → Option ℕ) (k : ℕ) : ℕ := (m k).getD 0

/-- Record that key `k` was touched at step `i`. -/
def updMap (m : ℕ → Option ℕ) (k : ℕ) (i : ℕ) : ℕ → Option ℕ :=
  fun x => if x = k then some i else m x

/-- One annotated step: the cache step together with the last-touch map update
and the operation counter. -/
def annStep {α : Type} (st : ImageCache α × (ℕ → Option ℕ) × ℕ) (op : CacheOp α) :
    ImageCache α × (ℕ → Option ℕ) × ℕ :=
  match op with
  | .get k =>
      ((st.1.get k).2,
       (if (assocLookup st.1.cache k).isSome then updMap st.2.1 k st.2.2 else st.2.1),
       st.2.2 + 1)
  | .put k v =>
      (st.1.put k v, updMap st.2.1 k st.2.2, st.2.2 + 1)

/-- The annotated run of a sequence of cache operations from the empty cache. -/
def annRun (α : Type) (maxSize : ℕ) (ops : List (CacheOp α)) :
    ImageCache α × (ℕ → Option ℕ) × ℕ :=
  ops.foldl annStep (ImageCache.init α maxSize, fun _ => none, 0)

/-- The last-touch map after running `ops` from the empty cache. -/
def touchMap (α : Type) (maxSize : ℕ) (ops : List (CacheOp α)) : ℕ → Option ℕ :=
  (annRun α maxSize ops).2.1

/-- `get` never changes the dict, only `access_order`. -/
theorem get_cache {α : Type} (c : ImageCache α) (k : ℕ) :
    ((c.get k).2).cache = c.cache := by
  unfold ImageCache.get
  cases assocLookup c.cache k <;> rfl

/-- The cache component of an annotated step is the plain cache step. -/
theorem annStep_fst {α : Type} (st : ImageCache α × (ℕ → Option ℕ) × ℕ) (op : CacheOp α) :
    (annStep st op).1 = cacheStep st.1 op := by
  cases op <;> rfl

/-- The cache component of the annotated run is the plain run. -/
theorem annRun_fst (α : Type) (maxSize : ℕ) (ops : List (CacheOp α)) :
    (annRun α maxSize ops).1 = runCache α maxSize ops := by
  unfold annRun runCache
  generalize ImageCache.init α maxSize = c0
  suffices h : ∀ (l : List (CacheOp α)) (st : ImageCache α × (ℕ → Option ℕ) × ℕ),
      (l.foldl annStep st).1 = l.foldl cacheStep st.1 by
    exact h ops (c0, fun _ => none, 0)
  intro l
  induction l with
  | nil => intro st; rfl
  | cons op rest ih =>
      intro st
      simp only [List.foldl_cons, ih, annStep_fst]

/-- Unfolding lemma: lookup in a cons. -/
theorem assocLookup_cons {α : Type} (a : ℕ) (b : α) (l : List (ℕ × α)) (k : ℕ) :
    assocLookup ((a, b) :: l) k = if k = a then some b else assocLookup l k := rfl

/-- Unfolding lemma: update of a cons. -/
theorem assocUpdate_cons {α : Type} (a : ℕ) (b : α) (l : List (ℕ × α)) (k : ℕ) (v : α) :
    assocUpdate ((a, b) :: l) k v =
      (if a = k then (k, v) else (a, b)) :: assocUpdate l k v := rfl

/-- Unfolding lemma: deletion from a cons. -/
theorem assocErase_cons {α : Type} (a : ℕ) (b : α) (l : List (ℕ × α)) (e : ℕ) :
    assocErase ((a, b) :: l) e =
      if a = e then assocErase l e else (a, b) :: assocErase l e := by
  by_cases ha : a = e <;> simp [assocErase, List.filter_cons, ha]

/-- A lookup succeeds iff the key is among the dict's keys. -/
theorem assocLookup_isSome_iff {α : Type} (l : List (ℕ × α)) (k : ℕ) :
    (assocLookup l k).isSome ↔ k ∈ l.map Prod.fst := by
  induction l with
  | nil => simp [assocLookup]
  | cons p rest ih =>
      obtain ⟨a, b⟩ := p
      by_cases h : k = a <;> simp [assocLookup_cons, h, ih]

/-- Updating a present key makes its lookup return the new value. -/
theorem assocLookup_update_self {α : Type} (l : List (ℕ × α)) (k : ℕ) (v : α)
    (h : (assocLookup l k).isSome) : assocLookup (assocUpdate l k v) k = some v := by
  induction l with
  | nil => simp [assocLookup] at h
  | cons p rest ih =>
      obtain ⟨a, b⟩ := p
      rw [assocUpdate_cons]
      by_cases ha : a = k
      · subst ha
        rw [if_pos rfl, assocLookup_cons, if_pos rfl]
      · rw [if_neg ha, assocLookup_cons, if_neg (fun hk => ha hk.symm)]
        rw [assocLookup_cons, if_neg (fun hk => ha hk.symm)] at h
        exact ih h

/-- Updating one key leaves lookups of other keys unchanged. -/
theorem assocLookup_update_ne {α : Type} (l : List (ℕ × α)) (k : ℕ) (v : α) (k' : ℕ)
    (h : k' ≠ k) : assocLookup (assocUpdate l k v) k' = assocLookup l k' := by
  induction l with
  | nil => rfl
  | cons p rest ih =>
      obtain ⟨a, b⟩ := p
      rw [assocUpdate_cons]
      by_cases ha : a = k
      · subst ha
        rw [if_pos rfl, assocLookup_cons, assocLookup_cons, if_neg h]
        by_cases h' : k' = a
        · exact absurd h' h
        · rw [if_neg h', ih]
      · rw [if_neg ha, assocLookup_cons, assocLookup_cons, ih]

/-- Pointwise update does not change the key list. -/
theorem map_fst_update {α : Type} (l : List (ℕ × α)) (k : ℕ) (v : α) :
    (assocUpdate l k v).map Prod.fst = l.map Prod.fst := by
  induction l with
  | nil => rfl
  | cons p rest ih =>
      obtain ⟨a, b⟩ := p
      rw [assocUpdate_cons]
      by_cases ha : a = k
      · subst ha
        rw [if_pos rfl]
        simp [ih]
      · rw [if_neg ha]
        simp [ih]

/-- Lookup in an append resolves in the left part when it succeeds there. -/
theorem assocLookup_append_left {α : Type} (l l' : List (ℕ × α)) (k : ℕ) (w : α)
    (h : assocLookup l k = some w) : assocLookup (l ++ l') k = some w := by
  induction l with
  | nil => simp [assocLookup] at h
  | cons p rest ih =>
      obtain ⟨a, b⟩ := p
      rw [assocLookup_cons] at h
      rw [List.cons_append, assocLookup_cons]
      by_cases hk : k = a
      · rw [if_pos hk] at h ⊢; exact h
      · rw [if_neg hk] at h ⊢; exact ih h

/-- Lookup in an append falls through to the right part when the left part misses. -/
theorem assocLookup_append_right {α : Type} (l l' : List (ℕ × α)) (k : ℕ)
    (h : assocLookup l k = none) : assocLookup (l ++ l') k = assocLookup l' k := by
  induction l with
  | nil => rfl
  | cons p rest ih =>
      obtain ⟨a, b⟩ := p
      rw [assocLookup_cons] at h
      rw [List.cons_append, assocLookup_cons]
      by_cases hk : k = a
      · rw [if_pos hk] at h; exact absurd h (by simp)
      · rw [if_neg hk] at h ⊢; exact ih h

/-- Deleting a key removes it from lookup. -/
theorem assocLookup_erase_self {α : Type} (l : List (ℕ × α)) (e : ℕ) :
    assocLookup (assocErase l e) e = none := by
  induction l with
  | nil => rfl
  | cons p rest ih =>
      obtain ⟨a, b⟩ := p
      rw [assocErase_cons]
      by_cases ha : a = e
      · rw [if_pos ha]; exact ih
      · rw [if_neg ha, assocLookup_cons, if_neg (fun hk => ha hk.symm)]; exact ih

/-- Deleting one key leaves lookups of other keys unchanged. -/
theorem assocLookup_erase_ne {α : Type} (l : List (ℕ × α)) (e k : ℕ) (h : k ≠ e) :
    assocLookup (assocErase l e) k = assocLookup l k := by
  induction l with
  | nil => rfl
  | cons p rest ih =>
      obtain ⟨a, b⟩ := p
      rw [assocErase_cons]
      by_cases ha : a = e
      · subst ha
        rw [if_pos rfl, assocLookup_cons, if_neg h, ih]
      · rw [if_neg ha, assocLookup_cons, assocLookup_cons, ih]

/-- Deletion filters the key list. -/
theorem map_fst_erase {α : Type} (l : List (ℕ × α)) (e : ℕ) :
    (assocErase l e).map Prod.fst = (l.map Prod.fst).filter (fun x => x ≠ e) := by
  induction l with
  | nil => rfl
  | cons p rest ih =>
      obtain ⟨a, b⟩ := p
      rw [assocErase_cons]
      by_cases ha : a = e <;> simp [List.filter_cons, ha, ih]

end BlurSpec

namespace BlurSpec

/-- The consistency invariant of the LRU cache, parameterized by the last-touch
map `m` and the operation counter `i`:
the dict never outgrows `max_size`; `access_order` is duplicate-free and is a
permutation of the dict's keys; every key in `access_order` has a recorded
last-touch index below `i`; and `access_order` is strictly sorted by last-touch
index (front = least recently used). -/
structure CacheInv {α : Type} (c : ImageCache α) (m : ℕ → Option ℕ) (i : ℕ) : Prop where
  msize : 1 ≤ c.max_size
  size : c.cache.length ≤ c.max_size
  nodup : c.access_order.Nodup
  perm : (c.cache.map Prod.fst).Perm c.access_order
  bounded : ∀ k ∈ c.access_order, ∃ j, m k = some j ∧ j < i
  sorted : c.access_order.Pairwise (fun a b => touchIdx m a < touchIdx m b)

/-- Appending a fresh key touched "now" to a recency-sorted list keeps all
invariant components (with the updated map and bumped counter). -/
theorem appendFresh {m : ℕ → Option ℕ} {i : ℕ} {L : List ℕ} {k : ℕ}
    (hn : L.Nodup) (hk : k ∉ L)
    (hb : ∀ a ∈ L, ∃ j, m a = some j ∧ j < i)
    (hs : L.Pairwise (fun a b => touchIdx m a < touchIdx m b)) :
    (L ++ [k]).Nodup ∧
    (∀ a ∈ L ++ [k], ∃ j, updMap m k i a = some j ∧ j < i + 1) ∧
    (L ++ [k]).Pairwise
      (fun a b => touchIdx (updMap m k i) a < touchIdx (updMap m k i) b) := by
  refine ⟨?_, ?_, ?_⟩
  · simp [List.nodup_append, hn, hk]
  · intro a ha
    rcases List.mem_append.mp ha with h | h
    · have hne : a ≠ k := fun he => hk (he ▸ h)
      obtain ⟨j, hj, hji⟩ := hb a h
      exact ⟨j, by simp [updMap, hne, hj], Nat.lt_succ_of_lt hji⟩
    · have : a = k := by simpa using h
      exact ⟨i, by simp [updMap, this], Nat.lt_succ_self i⟩
  · rw [List.pairwise_append]
    refine ⟨?_, List.pairwise_singleton _ _, ?_⟩
    · refine hs.imp_of_mem ?_
      intro a b ha hb'
      have hna : a ≠ k := fun he => hk (he ▸ ha)
      have hnb : b ≠ k := fun he => hk (he ▸ hb')
      simp [touchIdx, updMap, hna, hnb]
    · intro a ha b hbm
      have hb1 : b = k := by simpa using hbm
      have hna : a ≠ k := fun he => hk (he ▸ ha)
      obtain ⟨j, hj, hji⟩ := hb a ha
      subst hb1
      simp [touchIdx, updMap, hna, hj, hji]

/-- Moving a present key to the back of a recency-sorted list keeps all
invariant components. -/
theorem moveBack {m : ℕ → Option ℕ} {i : ℕ} {L : List ℕ} {k : ℕ}
    (hn : L.Nodup)
    (hb : ∀ a ∈ L, ∃ j, m a = some j ∧ j < i)
    (hs : L.Pairwise (fun a b => touchIdx m a < touchIdx m b)) :
    ((L.erase k) ++ [k]).Nodup ∧
    (∀ a ∈ (L.erase k) ++ [k], ∃ j, updMap m k i a = some j ∧ j < i + 1) ∧
    ((L.erase k) ++ [k]).Pairwise
      (fun a b => touchIdx (updMap m k i) a < touchIdx (updMap m k i) b) := by
  refine appendFresh (hn.erase k) ?_ ?_ ?_
  · intro hmem
    exact ((hn.mem_erase_iff).mp hmem).1 rfl
  · intro a ha
    exact hb a (List.mem_of_mem_erase ha)
  · exact hs.erase k

end BlurSpec

namespace BlurSpec

/-- Shape of `get` on a hit. -/
theorem get_snd_of_some {α : Type} {c : ImageCache α} {k : ℕ} {v : α}
    (hv : assocLookup c.cache k = some v) :
    (c.get k).2 = { c with access_order := (c.access_order.erase k) ++ [k] } := by
  unfold ImageCache.get; rw [hv]

/-- Shape of `get` on a miss. -/
theorem get_snd_of_none {α : Type} {c : ImageCache α} {k : ℕ}
    (hv : assocLookup c.cache k = none) : (c.get k).2 = c := by
  unfold ImageCache.get; rw [hv]

/-- Shape of `put` on an existing key. -/
theorem put_of_isSome {α : Type} {c : ImageCache α} {k : ℕ} (v : α)
    (h : (assocLookup c.cache k).isSome) :
    c.put k v = { c with cache := assocUpdate c.cache k v,
                         access_order := (c.access_order.erase k) ++ [k] } := by
  unfold ImageCache.put; rw [if_pos h]

/-- Shape of `put` on a fresh key with a full dict. -/
theorem put_of_evict {α : Type} {c : ImageCache α} {k : ℕ} (v : α) {lru : ℕ} {rest : List ℕ}
    (h : (assocLookup c.cache k).isSome = false) (hfull : c.max_size ≤ c.cache.length)
    (ho : c.access_order = lru :: rest) :
    c.put k v = { c with cache := (assocErase c.cache lru) ++ [(k, v)],
                         access_order := rest ++ [k] } := by
  unfold ImageCache.put
  rw [if_neg (by simp [h]), if_pos hfull, ho]

/-- Shape of `put` on a fresh key with room to spare. -/
theorem put_of_room {α : Type} {c : ImageCache α} {k : ℕ} (v : α)
    (h : (assocLookup c.cache k).isSome = false) (hroom : ¬ c.max_size ≤ c.cache.length) :
    c.put k v = { c with cache := c.cache ++ [(k, v)],
                         access_order := c.access_order ++ [k] } := by
  unfold ImageCache.put
  rw [if_neg (by simp [h]), if_neg hroom]

/-- `CacheInv` is preserved by every annotated cache step. -/
theorem cacheInv_step {α : Type} {c : ImageCache α} {m : ℕ → Option ℕ} {i : ℕ}
    (inv : CacheInv c m i) (op : CacheOp α) :
    CacheInv (annStep (c, m, i) op).1 (annStep (c, m, i) op).2.1
      (annStep (c, m, i) op).2.2 := by
  have keysLen : (c.cache.map Prod.fst).length = c.cache.length := List.length_map _ _
  cases op with
  | get k =>
      by_cases h : (assocLookup c.cache k).isSome
      · obtain ⟨v, hv⟩ := Option.isSome_iff_exists.mp h
        have hmemK : k ∈ c.cache.map Prod.fst := (assocLookup_isSome_iff _ _).mp h
        have hmem : k ∈ c.access_order := inv.perm.mem_iff.mp hmemK
        obtain ⟨hn, hb, hs⟩ :=
          moveBack (m := m) (i := i) (k := k) inv.nodup inv.bounded inv.sorted
        show CacheInv ((c.get k).2) (if (assocLookup c.cache k).isSome then updMap m k i else m)
          (i + 1)
        rw [get_snd_of_some hv, if_pos h]
        exact ⟨inv.msize, inv.size, hn,
          inv.perm.trans ((List.perm_cons_erase hmem).trans
            (List.perm_append_singleton k (c.access_order.erase k)).symm),
          hb, hs⟩
      · have hv : assocLookup c.cache k = none := Option.not_isSome_iff_eq_none.mp h
        show CacheInv ((c.get k).2) (if (assocLookup c.cache k).isSome then updMap m k i else m)
          (i + 1)
        rw [get_snd_of_none hv, if_neg h]
        exact ⟨inv.msize, inv.size, inv.nodup, inv.perm,
          fun a ha => (inv.bounded a ha).imp (fun j hj => ⟨hj.1, Nat.lt_succ_of_lt hj.2⟩),
          inv.sorted⟩
  | put k v =>
      show CacheInv (c.put k v) (updMap m k i) (i + 1)
      by_cases h : (assocLookup c.cache k).isSome
      · have hmemK : k ∈ c.cache.map Prod.fst := (assocLookup_isSome_iff _ _).mp h
        have hmem : k ∈ c.access_order := inv.perm.mem_iff.mp hmemK
        obtain ⟨hn, hb, hs⟩ :=
          moveBack (m := m) (i := i) (k := k) inv.nodup inv.bounded inv.sorted
        rw [put_of_isSome v h]
        refine ⟨inv.msize, ?_, hn, ?_, hb, hs⟩
        · show (assocUpdate c.cache k v).length ≤ c.max_size
          unfold assocUpdate
          rw [List.length_map]
          exact inv.size
        · show ((assocUpdate c.cache k v).map Prod.fst).Perm ((c.access_order.erase k) ++ [k])
          rw [map_fst_update]
          exact inv.perm.trans ((List.perm_cons_erase hmem).trans
            (List.perm_append_singleton k (c.access_order.erase k)).symm)
      · have hnotmemK : k ∉ c.cache.map Prod.fst := fun hmem =>
          h ((assocLookup_isSome_iff _ _).mpr hmem)
        have hnotmem : k ∉ c.access_order := fun hmem =>
          hnotmemK (inv.perm.mem_iff.mpr hmem)
        have hbool : (assocLookup c.cache k).isSome = false :=
          Bool.not_eq_true _ ▸ eq_false_of_ne_true (fun ht => h ht)
        by_cases hfull : c.max_size ≤ c.cache.length
        · -- eviction: the access order cannot be empty here
          cases ho : c.access_order with
          | nil =>
              exfalso
              have h0 : c.cache.length = 0 := by
                have hl := inv.perm.length_eq
                rw [ho, keysLen] at hl
                simpa using hl
              rw [h0] at hfull
              have hms := inv.msize
              omega
          | cons lru rest =>
              have hLru_notin : lru ∉ rest := (List.nodup_cons.mp (ho ▸ inv.nodup)).1
              have hRest_nodup : rest.Nodup := (List.nodup_cons.mp (ho ▸ inv.nodup)).2
              have hk_rest : k ∉ rest := fun hk => hnotmem (ho ▸ List.mem_cons_of_mem _ hk)
              obtain ⟨hn, hb, hs⟩ := appendFresh (m := m) (i := i) hRest_nodup hk_rest
                (fun a ha => inv.bounded a (ho ▸ List.mem_cons_of_mem _ ha))
                ((List.pairwise_cons.mp (ho ▸ inv.sorted)).2)
              have hfilter : (c.cache.map Prod.fst).filter (fun x => x ≠ lru) |>.Perm rest := by
                have h1 := inv.perm.filter (fun x => decide (x ≠ lru))
                rw [ho] at h1
                have h2 : (lru :: rest).filter (fun x => decide (x ≠ lru)) = rest := by
                  have hr : rest.filter (fun x => decide (x ≠ lru)) = rest :=
                    List.filter_eq_self.mpr (fun a ha => by
                      simp only [decide_eq_true_eq]
                      exact fun he => hLru_notin (he ▸ ha))
                  simp only [List.filter_cons, decide_not, ne_eq, not_true_eq_false,
                    decide_false_eq_false, Bool.not_false, Bool.not_true]
                  simp [hr]
                  exact fun a ha he => hLru_notin (he ▸ ha)
                rw [h2] at h1
                exact h1
              have hkeys : ((assocErase c.cache lru) ++ [(k, v)]).map Prod.fst =
                  ((c.cache.map Prod.fst).filter (fun x => x ≠ lru)) ++ [k] := by
                rw [List.map_append, map_fst_erase]
                rfl
              rw [put_of_evict v hbool hfull ho]
              refine ⟨inv.msize, ?_, hn, ?_, hb, hs⟩
              · show ((assocErase c.cache lru) ++ [(k, v)]).length ≤ c.max_size
                have hlen : ((assocErase c.cache lru) ++ [(k, v)]).length =
                    rest.length + 1 := by
                  have := congrArg List.length hkeys
                  rw [List.length_map, List.length_append, List.length_append,
                    hfilter.length_eq] at this
                  simpa using this
                have horderlen : c.cache.length = rest.length + 1 := by
                  have := inv.perm.length_eq
                  rw [ho, keysLen] at this
                  simpa using this
                rw [hlen, ← horderlen]
                exact inv.size
              · show (((assocErase c.cache lru) ++ [(k, v)]).map Prod.fst).Perm (rest ++ [k])
                rw [hkeys]
                exact hfilter.append_right [k]
        · obtain ⟨hn, hb, hs⟩ := appendFresh (m := m) (i := i) inv.nodup hnotmem
            inv.bounded inv.sorted
          rw [put_of_room v hbool hfull]
          refine ⟨inv.msize, ?_, hn, ?_, hb, hs⟩
          · show (c.cache ++ [(k, v)]).length ≤ c.max_size
            rw [List.length_append]
            have : c.cache.length + 1 ≤ c.max_size := Nat.lt_of_not_le hfull
            simpa using this
          · show ((c.cache ++ [(k, v)]).map Prod.fst).Perm (c.access_order ++ [k])
            rw [List.map_append]
            exact inv.perm.append_right [k]

/-- `CacheInv` holds along any annotated fold. -/
theorem cacheInv_foldl {α : Type} :
    ∀ (ops : List (CacheOp α)) (st : ImageCache α × (ℕ → Option ℕ) × ℕ),
      CacheInv st.1 st.2.1 st.2.2 →
      CacheInv (ops.foldl annStep st).1 (ops.foldl annStep st).2.1
        (ops.foldl annStep st).2.2
  | [], _, h => h
  | op :: rest, st, h => by
      rw [List.foldl_cons]
      exact cacheInv_foldl rest _ (cacheInv_step h op)

/-- `CacheInv` holds after any run from the empty cache (for a positive capacity). -/
theorem cacheInv_run {α : Type} (maxSize : ℕ) (hm : 1 ≤ maxSize) (ops : List (CacheOp α)) :
    CacheInv (annRun α maxSize ops).1 (annRun α maxSize ops).2.1
      (annRun α maxSize ops).2.2 := by
  unfold annRun
  refine cacheInv_foldl ops _ ?_
  exact ⟨hm, by simp [ImageCache.init], by simp [ImageCache.init],
    by simp [ImageCache.init], by simp [ImageCache.init], by simp [ImageCache.init]⟩

end BlurSpec

namespace BlurSpec

/-- Shape of `put` in the unreachable empty-access-order eviction branch. -/
theorem put_of_nil {α : Type} {c : ImageCache α} {k : ℕ} (v : α)
    (h : (assocLookup c.cache k).isSome = false) (hfull : c.max_size ≤ c.cache.length)
    (ho : c.access_order = []) : c.put k v = c := by
  unfold ImageCache.put
  rw [if_neg (by simp [h]), if_pos hfull, ho]

/-- A successful lookup of the key just `put` returns the value just put. -/
theorem lookup_put_self {α : Type} (c : ImageCache α) (k0 : ℕ) (v0 v : α)
    (h : assocLookup (c.put k0 v0).cache k0 = some v) : v = v0 := by
  by_cases h1 : (assocLookup c.cache k0).isSome
  · have hc : (c.put k0 v0).cache = assocUpdate c.cache k0 v0 := by
      rw [put_of_isSome v0 h1]
    rw [hc, assocLookup_update_self c.cache k0 v0 h1] at h
    exact (Option.some_inj.mp h).symm
  · have hb : assocLookup c.cache k0 = none := Option.not_isSome_iff_eq_none.mp h1
    have hbool : (assocLookup c.cache k0).isSome = false := by rw [hb]; rfl
    by_cases h2 : c.max_size ≤ c.cache.length
    · cases ho : c.access_order with
      | nil =>
          rw [put_of_nil v0 hbool h2 ho, hb] at h
          exact absurd h (by simp)
      | cons lru rest =>
          have hc : (c.put k0 v0).cache = (assocErase c.cache lru) ++ [(k0, v0)] := by
            rw [put_of_evict v0 hbool h2 ho]
          have hleft : assocLookup (assocErase c.cache lru) k0 = none := by
            by_cases hkl : k0 = lru
            · rw [hkl]; exact assocLookup_erase_self _ _
            · rw [assocLookup_erase_ne _ _ _ hkl]; exact hb
          rw [hc, assocLookup_append_right _ _ _ hleft, assocLookup_cons, if_pos rfl] at h
          exact (Option.some_inj.mp h).symm
    · have hc : (c.put k0 v0).cache = c.cache ++ [(k0, v0)] := by
        rw [put_of_room v0 hbool h2]
      rw [hc, assocLookup_append_right _ _ _ hb, assocLookup_cons, if_pos rfl] at h
      exact (Option.some_inj.mp h).symm

/-- A successful lookup of any other key after a `put` was already present before it. -/
theorem lookup_put_other {α : Type} (c : ImageCache α) (k0 : ℕ) (v0 : α) (k : ℕ) (v : α)
    (hk : k ≠ k0) (h : assocLookup (c.put k0 v0).cache k = some v) :
    assocLookup c.cache k = some v := by
  by_cases h1 : (assocLookup c.cache k0).isSome
  · have hc : (c.put k0 v0).cache = assocUpdate c.cache k0 v0 := by
      rw [put_of_isSome v0 h1]
    rw [hc, assocLookup_update_ne _ _ _ _ hk] at h
    exact h
  · have hb : assocLookup c.cache k0 = none := Option.not_isSome_iff_eq_none.mp h1
    have hbool : (assocLookup c.cache k0).isSome = false := by rw [hb]; rfl
    by_cases h2 : c.max_size ≤ c.cache.length
    · cases ho : c.access_order with
      | nil => rw [put_of_nil v0 hbool h2 ho] at h; exact h
      | cons lru rest =>
          have hc : (c.put k0 v0).cache = (assocErase c.cache lru) ++ [(k0, v0)] := by
            rw [put_of_evict v0 hbool h2 ho]
          rw [hc] at h
          cases hkl : assocLookup (assocErase c.cache lru) k with
          | some w =>
              rw [assocLookup_append_left _ _ _ _ hkl] at h
              by_cases hklru : k = lru
              · rw [hklru, assocLookup_erase_self] at hkl
                exact absurd hkl (by simp)
              · rw [assocLookup_erase_ne _ _ _ hklru] at hkl
                rw [hkl]; exact h
          | none =>
              rw [assocLookup_append_right _ _ _ hkl, assocLookup_cons, if_neg hk] at h
              exact absurd h (by simp [assocLookup])
    · have hc : (c.put k0 v0).cache = c.cache ++ [(k0, v0)] := by
        rw [put_of_room v0 hbool h2]
      rw [hc] at h
      cases hcl : assocLookup c.cache k with
      | some w =>
          rw [assocLookup_append_left _ _ _ _ hcl] at h
          exact h
      | none =>
          rw [assocLookup_append_right _ _ _ hcl, assocLookup_cons, if_neg hk] at h
          exact absurd h (by simp [assocLookup])

/-- Any value found in the dict after a run was the most recent `put` of its key
(generalized over the starting state and accumulator). -/
theorem lastPut_sound_aux {α : Type} :
    ∀ (ops : List (CacheOp α)) (c : ImageCache α) (acc : ℕ → Option α),
      (∀ k v, assocLookup c.cache k = some v → acc k = some v) →
      ∀ k v, assocLookup ((ops.foldl cacheStep c).cache) k = some v →
        (ops.foldl lastPutStep acc) k = some v := by
  intro ops
  induction ops with
  | nil => intro c acc hacc k v h; exact hacc k v h
  | cons op rest ih =>
      intro c acc hacc k v h
      rw [List.foldl_cons] at h ⊢
      refine ih (cacheStep c op) (lastPutStep acc op) ?_ k v h
      intro k' v' h'
      cases op with
      | get k0 =>
          rw [show (cacheStep c (.get k0)).cache = c.cache from get_cache c k0] at h'
          exact hacc k' v' h'
      | put k0 v0 =>
          show (if k' = k0 then some v0 else acc k') = some v'
          by_cases hk : k' = k0
          · subst hk
            rw [if_pos rfl, lookup_put_self c k' v0 v' h']
          · rw [if_neg hk]
            exact hacc k' v' (lookup_put_other c k0 v0 k' v' hk h')

/-- A value found in the cache after a run from the empty cache is the value most
recently `put` for its key. -/
theorem lastPut_sound {α : Type} (maxSize : ℕ) (ops : List (CacheOp α)) (k : ℕ) (v : α)
    (h : assocLookup ((runCache α maxSize ops).cache) k = some v) :
    lastPut ops k = some v := by
  unfold runCache at h
  exact lastPut_sound_aux ops (ImageCache.init α maxSize) (fun _ => none)
    (by intro k' v' h'; exact absurd h' (by simp [ImageCache.init, assocLookup])) k v h

end BlurSpec

namespace BlurSpec

namespace BlurViewer

/-! ## `BlurViewer.py`, `class BlurViewer`

Class constants (`self.lerp_factor` and `self.pan_friction` are assigned once in
`__init__` from `LERP_FACTOR` / `PAN_FRICTION` and never reassigned, so they are
inlined as constants). -/

/-- `LERP_FACTOR = 0.18` -/
def LERP_FACTOR : ℚ := 18/100

/-- `PAN_FRICTION = 0.85` -/
def PAN_FRICTION : ℚ := 85/100

/-- `NAVIGATION_SPEED = 0.045` -/
def NAVIGATION_SPEED : ℚ := 45/1000

/-- `ZOOM_FACTOR = 1.2` -/
def ZOOM_FACTOR : ℚ := 12/10

/-- `ZOOM_STEP = 0.15` -/
def ZOOM_STEP : ℚ := 15/100

/-- `MIN_SCALE = 0.1` -/
def MIN_SCALE : ℚ := 1/10

/-- `MAX_SCALE = 20.0` -/
def MAX_SCALE : ℚ := 20

/-- `WINDOWED_BG_OPACITY = 200.0` -/
def WINDOWED_BG_OPACITY : ℚ := 200

/-- `FULLSCREEN_BG_OPACITY = 250.0` -/
def FULLSCREEN_BG_OPACITY : ℚ := 250

/-- The mutable fields of a `BlurViewer` widget that the verified operations
touch, plus the (immutable) screen geometry environment:
`geomW/geomH/geomC` model `primaryScreen().geometry()` and its center,
`availW/availH/availC` model `primaryScreen().availableGeometry()` and its
center.  `rotation` only ever holds multiples of 90 (`(r + 90) % 360`), so it is
kept as a natural number of degrees. -/
structure State where
  pixmap : Option Pix
  movie : Option Pix
  rotation : ℕ
  image_files : List ℕ
  current_index : ℤ
  target_scale : ℚ
  current_scale : ℚ
  target_offset : Pt
  current_offset : Pt
  fit_scale : ℚ
  navigation_animation : Bool
  navigation_direction : ℤ
  navigation_progress : ℚ
  old_pixmap : Option Pix
  new_pixmap : Option Pix
  is_panning : Bool
  last_mouse_pos : Pt
  pan_velocity : Pt
  opening_animation : Bool
  opening_scale : ℚ
  opening_opacity : ℚ
  closing_animation : Bool
  closing_scale : ℚ
  closing_opacity : ℚ
  background_opacity : ℚ
  target_background_opacity : ℚ
  is_fullscreen : Bool
  saved_scale : ℚ
  saved_offset : Pt
  geomW : ℚ
  geomH : ℚ
  geomC : Pt
  availW : ℚ
  availH : ℚ
  availC : Pt
  load_request : Option ℕ
  loads_started : ℕ
  exit_requests : ℕ
deriving DecidableEq

/-- `_get_current_pixmap` with the `_needs_cache_update` caching flattened out:
the static pixmap if any, else the movie's current frame if any. -/
def getCurrentPixmap (s : State) : Option Pix :=
  match s.pixmap with
  | some p => some p
  | none => s.movie

/-- `_calculate_effective_dimensions`: swap width/height at 90° or 270°. -/
def calculateEffectiveDimensions (s : State) : ℚ × ℚ :=
  match getCurrentPixmap s with
  | none => (1, 1)
  | some p => if s.rotation % 180 = 90 then (p.h, p.w) else (p.w, p.h)

/-- `QRectF(x0, y0, w, h).contains(p)`: inside or on the edge, degenerate
(zero-extent) rectangles contain nothing. -/
def rectContains (x0 y0 w h : ℚ) (p : Pt) : Bool :=
  let l := if w < 0 then x0 + w else x0
  let r := if w < 0 then x0 else x0 + w
  let t := if h < 0 then y0 + h else y0
  let b := if h < 0 then y0 else y0 + h
  decide (l ≠ r ∧ t ≠ b ∧ l ≤ p.x ∧ p.x ≤ r ∧ t ≤ p.y ∧ p.y ≤ b)

/-- `point_in_image` composed with `get_image_bounds` (which returns the empty
`QRectF()` when no image is loaded). -/
def point_in_image (s : State) (point : Pt) : Bool :=
  match getCurrentPixmap s with
  | none => rectContains 0 0 0 0 point
  | some p =>
      let img_w := p.w * s.current_scale
      let img_h := p.h * s.current_scale
      rectContains (s.current_offset.x - img_w / 2) (s.current_offset.y - img_h / 2)
        img_w img_h point

/-- `zoom_to(new_scale, focus_point)`: fullscreen floor, clamp to
`[MIN_SCALE, MAX_SCALE]`, focus-point resolution, focus-preserving target
offset, and finally the new target scale. -/
def zoom_to (s : State) (new_scale : ℚ) (focus_point : Option Pt) : State :=
  if s.pixmap = none ∧ s.movie = none then s
  else
    let ns1 : ℚ :=
      if s.is_fullscreen then
        let eff := calculateEffectiveDimensions s
        if 0 < eff.1 ∧ 0 < eff.2 then
          max (min (s.geomW / eff.1) (s.geomH / eff.2)) new_scale
        else new_scale
      else new_scale
    let ns2 := max MIN_SCALE (min MAX_SCALE ns1)
    let fp :=
      match focus_point with
      | none => s.current_offset
      | some f => if point_in_image s f then f else s.current_offset
    let s1 :=
      if 0 < s.current_scale then
        let dx := fp.x - s.current_offset.x
        let dy := fp.y - s.current_offset.y
        let scale_ratio := ns2 / s.current_scale
        { s with target_offset := ⟨fp.x - dx * scale_ratio, fp.y - dy * scale_ratio⟩ }
      else s
    { s1 with target_scale := ns2 }

/-- `fit_to_screen`: recompute the fit scale from rotation-adjusted dimensions
and the available-geometry box (90% margin, capped at native size), retarget to
the screen center.  The `self.current_offset = QPointF(self.current_offset)`
copy is a value-level no-op. -/
def fit_to_screen (s : State) : State :=
  if s.pixmap = none ∧ s.movie = none then s
  else
    let s1 :=
      match getCurrentPixmap s with
      | some _ =>
          let eff := calculateEffectiveDimensions s
          if 0 < eff.1 ∧ 0 < eff.2 then
            { s with
              fit_scale := min (min (s.availW * (9/10) / eff.1) (s.availH * (9/10) / eff.2)) 1 }
          else s
      | none => s
    { s1 with target_scale := s1.fit_scale, target_offset := s1.availC }

/-- `_fit_to_fullscreen` (animated): fullscreen-geometry fit with no upscale cap. -/
def fit_to_fullscreen (s : State) : State :=
  if s.pixmap = none ∧ s.movie = none then s
  else
    let eff := calculateEffectiveDimensions s
    let fs := if 0 < eff.1 ∧ 0 < eff.2 then min (s.geomW / eff.1) (s.geomH / eff.2) else 1
    { s with target_scale := fs, target_offset := s.geomC }

/-- `_fit_to_fullscreen_instant`: as `_fit_to_fullscreen` but also snaps the
current scale/offset, bypassing convergence. -/
def fit_to_fullscreen_instant (s : State) : State :=
  if s.pixmap = none ∧ s.movie = none then s
  else
    let eff := calculateEffectiveDimensions s
    let fs := if 0 < eff.1 ∧ 0 < eff.2 then min (s.geomW / eff.1) (s.geomH / eff.2) else 1
    { s with target_scale := fs, current_scale := fs,
             target_offset := s.geomC, current_offset := s.geomC }

/-- `close_application`: start the closing animation once and issue the delayed
exit request (`QTimer.singleShot(300, quit)`) exactly on that transition. -/
def close_application (s : State) : State :=
  if s.closing_animation = false then
    { s with closing_animation := true, target_background_opacity := 0,
             exit_requests := s.exit_requests + 1 }
  else s

/-- `toggle_fullscreen` (window resize/move calls are outside the model). -/
def toggle_fullscreen (s : State) : State :=
  let s0 := { s with is_fullscreen := !s.is_fullscreen }
  if s0.is_fullscreen then
    fit_to_fullscreen { s0 with saved_scale := s0.target_scale,
                                saved_offset := s0.target_offset,
                                target_background_opacity := FULLSCREEN_BG_OPACITY }
  else
    { s0 with target_scale := s0.saved_scale, target_offset := s0.saved_offset,
              target_background_opacity := WINDOWED_BG_OPACITY }

/-- `navigate_to_image(direction)`: guarded against missing directory data and a
slide already in progress; wraps the index, sets up the slide (windowed mode
only) and starts the background load of the new path. -/
def navigate_to_image (s : State) (direction : ℤ) : State :=
  if s.image_files = [] ∨ s.current_index = -1 ∨ s.navigation_animation then s
  else
    let new_index := (s.current_index + direction) % (s.image_files.length : ℤ)
    if new_index = s.current_index then s
    else
      let s1 :=
        if s.is_fullscreen = false then
          { s with old_pixmap := getCurrentPixmap s,
                   navigation_direction := direction,
                   navigation_progress := 0,
                   navigation_animation := true }
        else s
      { s1 with current_index := new_index,
                load_request := some (s1.image_files.getD new_index.toNat 0),
                loads_started := s1.loads_started + 1 }

/-- Mouse buttons relevant to the viewer. -/
inductive MouseButton where
  | left
  | right
deriving DecidableEq

/-- `mousePressEvent`: left inside the image starts panning; left outside (in
windowed mode) or right anywhere dismisses the viewer. -/
def mousePressEvent (s : State) (pos : Pt) (b : MouseButton) : State :=
  match b with
  | .left =>
      if point_in_image s pos then
        { s with is_panning := true, last_mouse_pos := pos, pan_velocity := ptZero }
      else if s.is_fullscreen = false then close_application s
      else s
  | .right => close_application s

/-- `mouseMoveEvent`: 1:1 panning, target snapped to current, velocity recorded
as `delta * 0.6`. -/
def mouseMoveEvent (s : State) (pos : Pt) : State :=
  if s.is_panning then
    let delta := ptSub pos s.last_mouse_pos
    let co := ptAdd s.current_offset delta
    { s with current_offset := co, target_offset := co,
             pan_velocity := ptScale (6/10) delta, last_mouse_pos := pos }
  else s

/-- `mouseReleaseEvent` (left button ends panning). -/
def mouseReleaseEvent (s : State) (b : MouseButton) : State :=
  match b with
  | .left => { s with is_panning := false }
  | .right => s

/-- `_keyboard_zoom(factor)`: multiplicative zoom on the *target* scale focused
at the screen center. -/
def keyboard_zoom (s : State) (factor : ℚ) : State :=
  if s.pixmap.isSome ∨ s.movie.isSome then
    zoom_to s (s.target_scale * factor) (some s.availC)
  else s

/-- Completion of a navigation slide inside `animate` (`navigation_progress`
reached 1): promote `new_pixmap`, drop `old_pixmap`, retarget to the screen
center and recompute the fit scale from the promoted pixmap's *unrotated*
dimensions. -/
def navCompleted (s : State) : State :=
  let s1 := { s with navigation_animation := false }
  let s2 :=
    if s1.new_pixmap.isSome then
      { s1 with movie := none, pixmap := s1.new_pixmap, new_pixmap := none }
    else s1
  let s3 := { s2 with old_pixmap := none, target_offset := s2.availC }
  match getCurrentPixmap s3 with
  | some px =>
      let fs := min (min (s3.availW * (9/10) / px.w) (s3.availH * (9/10) / px.h)) 1
      { s3 with fit_scale := fs, target_scale := fs }
  | none => s3

/-- Navigation-slide block of `animate`. -/
def navStep (s : State) : State × Bool :=
  if s.navigation_animation then
    let p := min 1 (s.navigation_progress + NAVIGATION_SPEED)
    let s1 := { s with navigation_progress := p }
    if 1 ≤ p then (navCompleted s1, true) else (s1, true)
  else (s, false)

/-- Opening-animation block of `animate`. -/
def openingStep (s : State) : State × Bool :=
  if s.opening_animation then
    let os := min 1 (s.opening_scale + (1 - s.opening_scale) * (15/100))
    let oo := min 1 (s.opening_opacity + (1 - s.opening_opacity) * (2/10))
    let s1 := { s with opening_scale := os, opening_opacity := oo }
    if (99/100 : ℚ) < os ∧ (99/100 : ℚ) < oo then
      ({ s1 with opening_scale := 1, opening_opacity := 1, opening_animation := false },
       true)
    else (s1, true)
  else (s, false)

/-- Closing-animation block of `animate` (never self-terminates). -/
def closingStep (s : State) : State × Bool :=
  if s.closing_animation then
    ({ s with closing_scale := s.closing_scale + (7/10 - s.closing_scale) * (25/100),
              closing_opacity := s.closing_opacity + (0 - s.closing_opacity) * (25/100) },
     true)
  else (s, false)

/-- Background-fade block of `animate` (NOT guarded by the navigation flag in
this file, unlike the optimized variant). -/
def bgStep (s : State) : State × Bool :=
  let bg_diff := s.target_background_opacity - s.background_opacity
  if 1 < |bg_diff| then
    ({ s with background_opacity := s.background_opacity + bg_diff * (15/100) }, true)
  else (s, false)

/-- Pan-inertia block of `animate` (no snap to zero in this file). -/
def inertiaStep (s : State) : State × Bool :=
  if s.is_panning = false ∧
      ((1/10 : ℚ) < |s.pan_velocity.x| ∨ (1/10 : ℚ) < |s.pan_velocity.y|) then
    ({ s with target_offset := ptAdd s.target_offset s.pan_velocity,
              pan_velocity := ptScale PAN_FRICTION s.pan_velocity }, true)
  else (s, false)

/-- Convergence block of `animate`: lerp toward targets while the residual
exceeds the epsilons (no exact snap in this file). -/
def lerpStep (s : State) : State × Bool :=
  let scale_diff := s.target_scale - s.current_scale
  let offset_diff := ptSub s.target_offset s.current_offset
  let r1 :=
    if (1/1000 : ℚ) < |scale_diff| then
      ({ s with current_scale := s.current_scale + scale_diff * LERP_FACTOR }, true)
    else (s, false)
  let r2 :=
    if (1/10 : ℚ) < |offset_diff.x| ∨ (1/10 : ℚ) < |offset_diff.y| then
      ({ r1.1 with current_offset := ptAdd r1.1.current_offset (ptScale LERP_FACTOR offset_diff) },
       true)
    else (r1.1, false)
  (r2.1, r1.2 || r2.2)

/-- `animate`: one timer tick; the `Bool` is `needs_update`, i.e. whether a
(coalesced) repaint was requested via `schedule_update`. -/
def animate (s : State) : State × Bool :=
  let r1 := navStep s
  let r2 := openingStep r1.1
  let r3 := closingStep r2.1
  let r4 := bgStep r3.1
  let r5 := inertiaStep r4.1
  let r6 := lerpStep r5.1
  (r6.1, r1.2 || r2.2 || r3.2 || r4.2 || r5.2 || r6.2)

/-- The state transformer of one tick. -/
def tick (s : State) : State := (animate s).1

end BlurViewer

end BlurSpec

namespace BlurSpec

namespace OptimizedImageViewer

/-! ## `BlurViewer_Optimized.py`, `class OptimizedImageViewer`

`self.min_scale = 0.1`, `self.max_scale = 20.0`, `self.lerp_factor = 0.2`,
`self.pan_friction = 0.85` are assigned once in `__init__` and never reassigned,
so they are inlined as constants.  The QMovie field is never populated by this
class's loaders and is omitted.  The `time.time()`-based frame limiter at the
top of `animate` only drops over-frequent timer callbacks; a modelled tick is a
callback that passes the limiter. -/

/-- The mutable state of an `OptimizedImageViewer`, including its LRU image
cache, plus the immutable available-screen geometry. -/
structure State where
  pixmap : Option Pix
  rotation : ℕ
  image_files : List ℕ
  current_index : ℤ
  image_cache : ImageCache Pix
  target_scale : ℚ
  current_scale : ℚ
  target_offset : Pt
  current_offset : Pt
  fit_scale : ℚ
  navigation_animation : Bool
  navigation_direction : ℤ
  navigation_progress : ℚ
  old_pixmap : Option Pix
  new_pixmap : Option Pix
  is_panning : Bool
  last_mouse_pos : Pt
  pan_velocity : Pt
  opening_animation : Bool
  opening_scale : ℚ
  opening_opacity : ℚ
  closing_animation : Bool
  closing_scale : ℚ
  closing_opacity : ℚ
  background_opacity : ℚ
  target_background_opacity : ℚ
  availW : ℚ
  availH : ℚ
  availC : Pt
  load_request : Option ℕ
  loads_started : ℕ
  exit_requests : ℕ
deriving DecidableEq

/-- `point_in_image` via `get_image_bounds` (only the static pixmap counts). -/
def point_in_image (s : State) (point : Pt) : Bool :=
  match s.pixmap with
  | none => BlurViewer.rectContains 0 0 0 0 point
  | some p =>
      let img_w := p.w * s.current_scale
      let img_h := p.h * s.current_scale
      BlurViewer.rectContains (s.current_offset.x - img_w / 2)
        (s.current_offset.y - img_h / 2) img_w img_h point

/-- `zoom_to(new_scale, focus_point)` (no fullscreen mode in this class). -/
def zoom_to (s : State) (new_scale : ℚ) (focus_point : Option Pt) : State :=
  if s.pixmap = none then s
  else
    let ns2 := max (1/10) (min 20 new_scale)
    let fp :=
      match focus_point with
      | none => s.current_offset
      | some f => if point_in_image s f then f else s.current_offset
    let s1 :=
      if 0 < s.current_scale then
        let dx := fp.x - s.current_offset.x
        let dy := fp.y - s.current_offset.y
        let scale_ratio := ns2 / s.current_scale
        { s with target_offset := ⟨fp.x - dx * scale_ratio, fp.y - dy * scale_ratio⟩ }
      else s
    { s1 with target_scale := ns2 }

/-- `_setup_image_display`: compute the fit scale (90% margin, capped at native),
start from 80% of it, center, and reset the opening/background/velocity state. -/
def setup_image_display (s : State) : State :=
  match s.pixmap with
  | none => s
  | some px =>
      let s1 :=
        if 0 < px.w ∧ 0 < px.h then
          { s with
            fit_scale := min (min (s.availW * (9/10) / px.w) (s.availH * (9/10) / px.h)) 1 }
        else { s with fit_scale := 1 }
      { s1 with target_scale := s1.fit_scale,
                current_scale := s1.fit_scale * (8/10),
                target_offset := s1.availC,
                current_offset := s1.availC,
                opening_animation := true,
                opening_scale := 8/10,
                opening_opacity := 0,
                background_opacity := 0,
                target_background_opacity := 200,
                pan_velocity := ptZero }

/-- `_switch_to_image(new_index, pixmap)`: immediate swap from the cache, slide
setup, and display reset.  The `_preload_adjacent_images` call only spawns
asynchronous workers and is outside the sequential model. -/
def switch_to_image (s : State) (new_index : ℤ) (px : Pix) : State :=
  setup_image_display
    { s with old_pixmap := s.pixmap,
             navigation_direction := if s.current_index < new_index then 1 else -1,
             navigation_progress := 0,
             navigation_animation := true,
             current_index := new_index,
             pixmap := some px }

/-- `_load_for_navigation(new_index, new_path)`: slide setup plus a background
load request. -/
def load_for_navigation (s : State) (new_index : ℤ) (new_path : ℕ) : State :=
  { s with old_pixmap := s.pixmap,
           navigation_direction := if s.current_index < new_index then 1 else -1,
           navigation_progress := 0,
           navigation_animation := true,
           current_index := new_index,
           load_request := some new_path,
           loads_started := s.loads_started + 1 }

/-- `navigate_to_image(direction)`: guards, wrap-around index, then either the
cached fast path or a disk load. -/
def navigate_to_image (s : State) (direction : ℤ) : State :=
  if s.image_files = [] ∨ s.current_index = -1 then s
  else if s.navigation_animation then s
  else
    let new_index := (s.current_index + direction) % (s.image_files.length : ℤ)
    if new_index = s.current_index then s
    else
      let new_path := s.image_files.getD new_index.toNat 0
      let res := s.image_cache.get new_path
      let s1 := { s with image_cache := res.2 }
      match res.1 with
      | some px => switch_to_image s1 new_index px
      | none => load_for_navigation s1 new_index new_path

/-- `close_application` (`QTimer.singleShot(500, quit)` on the transition). -/
def close_application (s : State) : State :=
  if s.closing_animation = false then
    { s with closing_animation := true, target_background_opacity := 0,
             exit_requests := s.exit_requests + 1 }
  else s

/-- `mouseMoveEvent` (identical panning logic to `BlurViewer`). -/
def mouseMoveEvent (s : State) (pos : Pt) : State :=
  if s.is_panning then
    let delta := ptSub pos s.last_mouse_pos
    let co := ptAdd s.current_offset delta
    { s with current_offset := co, target_offset := co,
             pan_velocity := ptScale (6/10) delta, last_mouse_pos := pos }
  else s

/-- Navigation-slide block of `animate`: progress by 0.1, clamp at completion,
promote the incoming image (no fit/offset reset in this class). -/
def navStep (s : State) : State × Bool :=
  if s.navigation_animation then
    let p := s.navigation_progress + 1/10
    if 1 ≤ p then
      let s2 := { s with navigation_progress := 1, navigation_animation := false }
      let s3 :=
        if s2.new_pixmap.isSome then
          { s2 with pixmap := s2.new_pixmap, new_pixmap := none }
        else s2
      ({ s3 with old_pixmap := none }, true)
    else ({ s with navigation_progress := p }, true)
  else (s, false)

/-- Opening-animation block of `animate` (faster constants, snap within 0.01). -/
def openingStep (s : State) : State × Bool :=
  if s.opening_animation then
    let os := s.opening_scale + (1 - s.opening_scale) * (2/10)
    let oo := s.opening_opacity + (1 - s.opening_opacity) * (25/100)
    let s1 := { s with opening_scale := os, opening_opacity := oo }
    if |os - 1| < 1/100 ∧ |oo - 1| < 1/100 then
      ({ s1 with opening_scale := 1, opening_opacity := 1, opening_animation := false },
       true)
    else (s1, true)
  else (s, false)

/-- Closing-animation block of `animate`. -/
def closingStep (s : State) : State × Bool :=
  if s.closing_animation then
    ({ s with closing_scale := s.closing_scale + (7/10 - s.closing_scale) * (3/10),
              closing_opacity := s.closing_opacity + (0 - s.closing_opacity) * (3/10) },
     true)
  else (s, false)

/-- Background-fade block of `animate`: explicitly paused while a navigation
slide is in progress, snaps to the target within 1.0 without a repaint. -/
def bgStep (s : State) : State × Bool :=
  if s.navigation_animation = false then
    let bg_diff := s.target_background_opacity - s.background_opacity
    if 1 < |bg_diff| then
      ({ s with background_opacity := s.background_opacity + bg_diff * (2/10) }, true)
    else ({ s with background_opacity := s.target_background_opacity }, false)
  else (s, false)

/-- Pan-inertia block of `animate`: decay while above the epsilon, snap the
velocity to exactly zero below it (without a repaint). -/
def inertiaStep (s : State) : State × Bool :=
  if s.is_panning = false then
    if (1/10 : ℚ) < |s.pan_velocity.x| ∨ (1/10 : ℚ) < |s.pan_velocity.y| then
      ({ s with target_offset := ptAdd s.target_offset s.pan_velocity,
                pan_velocity := ptScale (85/100) s.pan_velocity }, true)
    else ({ s with pan_velocity := ptZero }, false)
  else (s, false)

/-- Convergence block of `animate`: lerp toward targets above the epsilons and
snap exactly onto them below (without a repaint). -/
def lerpStep (s : State) : State × Bool :=
  let scale_diff := s.target_scale - s.current_scale
  let offset_diff := ptSub s.target_offset s.current_offset
  let r1 :=
    if (1/1000 : ℚ) < |scale_diff| then
      ({ s with current_scale := s.current_scale + scale_diff * (2/10) }, true)
    else ({ s with current_scale := s.target_scale }, false)
  let r2 :=
    if (1/10 : ℚ) < |offset_diff.x| ∨ (1/10 : ℚ) < |offset_diff.y| then
      ({ r1.1 with
         current_offset := ptAdd r1.1.current_offset (ptScale (2/10) offset_diff) }, true)
    else ({ r1.1 with current_offset := r1.1.target_offset }, false)
  (r2.1, r1.2 || r2.2)

/-- `animate`: one (non-skipped) timer tick; the `Bool` is `needs_update`. -/
def animate (s : State) : State × Bool :=
  let r1 := navStep s
  let r2 := openingStep r1.1
  let r3 := closingStep r2.1
  let r4 := bgStep r3.1
  let r5 := inertiaStep r4.1
  let r6 := lerpStep r5.1
  (r6.1, r1.2 || r2.2 || r3.2 || r4.2 || r5.2 || r6.2)

/-- The state transformer of one tick. -/
def tick (s : State) : State := (animate s).1

end OptimizedImageViewer

end BlurSpec

namespace BlurSpec

/-! ### Which fields each `animate` block touches (both viewers) -/

theorem BlurViewer.navStep_shape (s : BlurViewer.State) :
    ∃ npr na mv px npx opx toff fs ts, (BlurViewer.navStep s).1 =
      { s with navigation_progress := npr, navigation_animation := na, movie := mv,
               pixmap := px, new_pixmap := npx, old_pixmap := opx,
               target_offset := toff, fit_scale := fs, target_scale := ts } := by
  unfold BlurViewer.navStep BlurViewer.navCompleted
  try dsimp only
  repeat' split
  all_goals exact ⟨_, _, _, _, _, _, _, _, _, rfl⟩

theorem BlurViewer.openingStep_shape (s : BlurViewer.State) :
    ∃ a b c, (BlurViewer.openingStep s).1 =
      { s with opening_scale := a, opening_opacity := b, opening_animation := c } := by
  unfold BlurViewer.openingStep
  try dsimp only
  repeat' split
  all_goals exact ⟨_, _, _, rfl⟩

theorem BlurViewer.closingStep_shape (s : BlurViewer.State) :
    ∃ a b, (BlurViewer.closingStep s).1 =
      { s with closing_scale := a, closing_opacity := b } := by
  unfold BlurViewer.closingStep
  try dsimp only
  repeat' split
  all_goals exact ⟨_, _, rfl⟩

theorem BlurViewer.bgStep_shape (s : BlurViewer.State) :
    ∃ a, (BlurViewer.bgStep s).1 = { s with background_opacity := a } := by
  unfold BlurViewer.bgStep
  try dsimp only
  repeat' split
  all_goals exact ⟨_, rfl⟩

theorem BlurViewer.inertiaStep_shape (s : BlurViewer.State) :
    ∃ t v, (BlurViewer.inertiaStep s).1 =
      { s with target_offset := t, pan_velocity := v } := by
  unfold BlurViewer.inertiaStep
  try dsimp only
  repeat' split
  all_goals exact ⟨_, _, rfl⟩

theorem BlurViewer.lerpStep_shape (s : BlurViewer.State) :
    ∃ cs co, (BlurViewer.lerpStep s).1 =
      { s with current_scale := cs, current_offset := co } := by
  unfold BlurViewer.lerpStep
  try dsimp only
  repeat' split
  all_goals exact ⟨_, _, rfl⟩

theorem OptimizedImageViewer.navStep_shape_ov (s : OptimizedImageViewer.State) :
    ∃ npr na px npx opx, (OptimizedImageViewer.navStep s).1 =
      { s with navigation_progress := npr, navigation_animation := na,
               pixmap := px, new_pixmap := npx, old_pixmap := opx } := by
  unfold OptimizedImageViewer.navStep
  try dsimp only
  repeat' split
  all_goals exact ⟨_, _, _, _, _, rfl⟩

theorem OptimizedImageViewer.openingStep_shape_ov (s : OptimizedImageViewer.State) :
    ∃ a b c, (OptimizedImageViewer.openingStep s).1 =
      { s with opening_scale := a, opening_opacity := b, opening_animation := c } := by
  unfold OptimizedImageViewer.openingStep
  try dsimp only
  repeat' split
  all_goals exact ⟨_, _, _, rfl⟩

theorem OptimizedImageViewer.closingStep_shape_ov (s : OptimizedImageViewer.State) :
    ∃ a b, (OptimizedImageViewer.closingStep s).1 =
      { s with closing_scale := a, closing_opacity := b } := by
  unfold OptimizedImageViewer.closingStep
  try dsimp only
  repeat' split
  all_goals exact ⟨_, _, rfl⟩

theorem OptimizedImageViewer.bgStep_shape_ov (s : OptimizedImageViewer.State) :
    ∃ a, (OptimizedImageViewer.bgStep s).1 = { s with background_opacity := a } := by
  unfold OptimizedImageViewer.bgStep
  try dsimp only
  repeat' split
  all_goals exact ⟨_, rfl⟩

theorem OptimizedImageViewer.inertiaStep_shape_ov (s : OptimizedImageViewer.State) :
    ∃ t v, (OptimizedImageViewer.inertiaStep s).1 =
      { s with target_offset := t, pan_velocity := v } := by
  unfold OptimizedImageViewer.inertiaStep
  try dsimp only
  repeat' split
  all_goals exact ⟨_, _, rfl⟩

theorem OptimizedImageViewer.lerpStep_shape_ov (s : OptimizedImageViewer.State) :
    ∃ cs co, (OptimizedImageViewer.lerpStep s).1 =
      { s with current_scale := cs, current_offset := co } := by
  unfold OptimizedImageViewer.lerpStep
  try dsimp only
  repeat' split
  all_goals exact ⟨_, _, rfl⟩

end BlurSpec

namespace BlurSpec

/-! ### Per-field preservation facts for the `BlurViewer.py` tick blocks -/

/-- Fields the navigation block never writes. -/
theorem BlurViewer.navStep_pres (s : BlurViewer.State) :
    (BlurViewer.navStep s).1.closing_animation = s.closing_animation ∧
    (BlurViewer.navStep s).1.exit_requests = s.exit_requests ∧
    (BlurViewer.navStep s).1.current_scale = s.current_scale ∧
    (BlurViewer.navStep s).1.pan_velocity = s.pan_velocity ∧
    (BlurViewer.navStep s).1.is_panning = s.is_panning ∧
    (BlurViewer.navStep s).1.background_opacity = s.background_opacity := by
  unfold BlurViewer.navStep BlurViewer.navCompleted
  try dsimp only
  repeat' split
  all_goals exact ⟨rfl, rfl, rfl, rfl, rfl, rfl⟩

/-- Fields the opening block never writes. -/
theorem BlurViewer.openingStep_pres (s : BlurViewer.State) :
    (BlurViewer.openingStep s).1.closing_animation = s.closing_animation ∧
    (BlurViewer.openingStep s).1.exit_requests = s.exit_requests ∧
    (BlurViewer.openingStep s).1.target_scale = s.target_scale ∧
    (BlurViewer.openingStep s).1.current_scale = s.current_scale ∧
    (BlurViewer.openingStep s).1.navigation_animation = s.navigation_animation ∧
    (BlurViewer.openingStep s).1.pan_velocity = s.pan_velocity ∧
    (BlurViewer.openingStep s).1.is_panning = s.is_panning ∧
    (BlurViewer.openingStep s).1.target_offset = s.target_offset ∧
    (BlurViewer.openingStep s).1.background_opacity = s.background_opacity := by
  unfold BlurViewer.openingStep
  try dsimp only
  repeat' split
  all_goals exact ⟨rfl, rfl, rfl, rfl, rfl, rfl, rfl, rfl, rfl⟩

/-- Fields the closing block never writes (notably the closing *flag* itself). -/
theorem BlurViewer.closingStep_pres (s : BlurViewer.State) :
    (BlurViewer.closingStep s).1.closing_animation = s.closing_animation ∧
    (BlurViewer.closingStep s).1.exit_requests = s.exit_requests ∧
    (BlurViewer.closingStep s).1.target_scale = s.target_scale ∧
    (BlurViewer.closingStep s).1.current_scale = s.current_scale ∧
    (BlurViewer.closingStep s).1.navigation_animation = s.navigation_animation ∧
    (BlurViewer.closingStep s).1.pan_velocity = s.pan_velocity ∧
    (BlurViewer.closingStep s).1.is_panning = s.is_panning ∧
    (BlurViewer.closingStep s).1.target_offset = s.target_offset ∧
    (BlurViewer.closingStep s).1.background_opacity = s.background_opacity := by
  unfold BlurViewer.closingStep
  try dsimp only
  repeat' split
  all_goals exact ⟨rfl, rfl, rfl, rfl, rfl, rfl, rfl, rfl, rfl⟩

/-- Fields the background-fade block never writes. -/
theorem BlurViewer.bgStep_pres (s : BlurViewer.State) :
    (BlurViewer.bgStep s).1.closing_animation = s.closing_animation ∧
    (BlurViewer.bgStep s).1.exit_requests = s.exit_requests ∧
    (BlurViewer.bgStep s).1.target_scale = s.target_scale ∧
    (BlurViewer.bgStep s).1.current_scale = s.current_scale ∧
    (BlurViewer.bgStep s).1.navigation_animation = s.navigation_animation ∧
    (BlurViewer.bgStep s).1.pan_velocity = s.pan_velocity ∧
    (BlurViewer.bgStep s).1.is_panning = s.is_panning ∧
    (BlurViewer.bgStep s).1.target_offset = s.target_offset := by
  unfold BlurViewer.bgStep
  try dsimp only
  repeat' split
  all_goals exact ⟨rfl, rfl, rfl, rfl, rfl, rfl, rfl, rfl⟩

/-- Fields the pan-inertia block never writes. -/
theorem BlurViewer.inertiaStep_pres (s : BlurViewer.State) :
    (BlurViewer.inertiaStep s).1.closing_animation = s.closing_animation ∧
    (BlurViewer.inertiaStep s).1.exit_requests = s.exit_requests ∧
    (BlurViewer.inertiaStep s).1.target_scale = s.target_scale ∧
    (BlurViewer.inertiaStep s).1.current_scale = s.current_scale ∧
    (BlurViewer.inertiaStep s).1.navigation_animation = s.navigation_animation ∧
    (BlurViewer.inertiaStep s).1.is_panning = s.is_panning ∧
    (BlurViewer.inertiaStep s).1.background_opacity = s.background_opacity := by
  unfold BlurViewer.inertiaStep
  try dsimp only
  repeat' split
  all_goals exact ⟨rfl, rfl, rfl, rfl, rfl, rfl, rfl⟩

/-- Fields the convergence block never writes. -/
theorem BlurViewer.lerpStep_pres (s : BlurViewer.State) :
    (BlurViewer.lerpStep s).1.closing_animation = s.closing_animation ∧
    (BlurViewer.lerpStep s).1.exit_requests = s.exit_requests ∧
    (BlurViewer.lerpStep s).1.target_scale = s.target_scale ∧
    (BlurViewer.lerpStep s).1.navigation_animation = s.navigation_animation ∧
    (BlurViewer.lerpStep s).1.pan_velocity = s.pan_velocity ∧
    (BlurViewer.lerpStep s).1.is_panning = s.is_panning ∧
    (BlurViewer.lerpStep s).1.target_offset = s.target_offset ∧
    (BlurViewer.lerpStep s).1.background_opacity = s.background_opacity := by
  unfold BlurViewer.lerpStep
  try dsimp only
  repeat' split
  all_goals exact ⟨rfl, rfl, rfl, rfl, rfl, rfl, rfl, rfl⟩

/-- The scale update of the convergence block, in terms of the incoming state. -/
theorem BlurViewer.lerpStep_current_scale (s : BlurViewer.State) :
    (BlurViewer.lerpStep s).1.current_scale =
      (if (1/1000 : ℚ) < |s.target_scale - s.current_scale| then
        s.current_scale + (s.target_scale - s.current_scale) * BlurViewer.LERP_FACTOR
      else s.current_scale) := by
  unfold BlurViewer.lerpStep
  try dsimp only
  repeat' split
  all_goals simp_all

/-- The velocity update of the pan-inertia block. -/
theorem BlurViewer.inertiaStep_vel (s : BlurViewer.State) :
    (BlurViewer.inertiaStep s).1.pan_velocity =
      (if s.is_panning = false ∧
          ((1/10 : ℚ) < |s.pan_velocity.x| ∨ (1/10 : ℚ) < |s.pan_velocity.y|) then
        ptScale BlurViewer.PAN_FRICTION s.pan_velocity
      else s.pan_velocity) := by
  unfold BlurViewer.inertiaStep
  try dsimp only
  repeat' split
  all_goals simp_all

/-- With the slide flag off, the navigation block is a silent no-op. -/
theorem BlurViewer.navStep_off (s : BlurViewer.State)
    (hn : s.navigation_animation = false) : BlurViewer.navStep s = (s, false) := by
  unfold BlurViewer.navStep
  rw [hn]
  rfl

end BlurSpec

namespace BlurSpec

/-! ### Per-field preservation facts for the `BlurViewer_Optimized.py` tick blocks -/

/-- Fields the navigation block never writes (no recenter/refit in this class). -/
theorem OptimizedImageViewer.navStep_pres_ov (s : OptimizedImageViewer.State) :
    (OptimizedImageViewer.navStep s).1.target_scale = s.target_scale ∧
    (OptimizedImageViewer.navStep s).1.current_scale = s.current_scale ∧
    (OptimizedImageViewer.navStep s).1.pan_velocity = s.pan_velocity ∧
    (OptimizedImageViewer.navStep s).1.is_panning = s.is_panning ∧
    (OptimizedImageViewer.navStep s).1.target_offset = s.target_offset ∧
    (OptimizedImageViewer.navStep s).1.background_opacity = s.background_opacity ∧
    (OptimizedImageViewer.navStep s).1.target_background_opacity
      = s.target_background_opacity := by
  unfold OptimizedImageViewer.navStep
  try dsimp only
  repeat' split
  all_goals exact ⟨rfl, rfl, rfl, rfl, rfl, rfl, rfl⟩

/-- Fields the opening block never writes. -/
theorem OptimizedImageViewer.openingStep_pres_ov (s : OptimizedImageViewer.State) :
    (OptimizedImageViewer.openingStep s).1.target_scale = s.target_scale ∧
    (OptimizedImageViewer.openingStep s).1.current_scale = s.current_scale ∧
    (OptimizedImageViewer.openingStep s).1.navigation_animation
      = s.navigation_animation ∧
    (OptimizedImageViewer.openingStep s).1.pan_velocity = s.pan_velocity ∧
    (OptimizedImageViewer.openingStep s).1.is_panning = s.is_panning ∧
    (OptimizedImageViewer.openingStep s).1.target_offset = s.target_offset ∧
    (OptimizedImageViewer.openingStep s).1.background_opacity = s.background_opacity ∧
    (OptimizedImageViewer.openingStep s).1.target_background_opacity
      = s.target_background_opacity := by
  unfold OptimizedImageViewer.openingStep
  try dsimp only
  repeat' split
  all_goals exact ⟨rfl, rfl, rfl, rfl, rfl, rfl, rfl, rfl⟩

/-- Fields the closing block never writes. -/
theorem OptimizedImageViewer.closingStep_pres_ov (s : OptimizedImageViewer.State) :
    (OptimizedImageViewer.closingStep s).1.target_scale = s.target_scale ∧
    (OptimizedImageViewer.closingStep s).1.current_scale = s.current_scale ∧
    (OptimizedImageViewer.closingStep s).1.navigation_animation
      = s.navigation_animation ∧
    (OptimizedImageViewer.closingStep s).1.pan_velocity = s.pan_velocity ∧
    (OptimizedImageViewer.closingStep s).1.is_panning = s.is_panning ∧
    (OptimizedImageViewer.closingStep s).1.target_offset = s.target_offset ∧
    (OptimizedImageViewer.closingStep s).1.background_opacity = s.background_opacity ∧
    (OptimizedImageViewer.closingStep s).1.target_background_opacity
      = s.target_background_opacity := by
  unfold OptimizedImageViewer.closingStep
  try dsimp only
  repeat' split
  all_goals exact ⟨rfl, rfl, rfl, rfl, rfl, rfl, rfl, rfl⟩

/-- Fields the background-fade block never writes. -/
theorem OptimizedImageViewer.bgStep_pres_ov (s : OptimizedImageViewer.State) :
    (OptimizedImageViewer.bgStep s).1.target_scale = s.target_scale ∧
    (OptimizedImageViewer.bgStep s).1.current_scale = s.current_scale ∧
    (OptimizedImageViewer.bgStep s).1.navigation_animation = s.navigation_animation ∧
    (OptimizedImageViewer.bgStep s).1.pan_velocity = s.pan_velocity ∧
    (OptimizedImageViewer.bgStep s).1.is_panning = s.is_panning ∧
    (OptimizedImageViewer.bgStep s).1.target_offset = s.target_offset := by
  unfold OptimizedImageViewer.bgStep
  try dsimp only
  repeat' split
  all_goals exact ⟨rfl, rfl, rfl, rfl, rfl, rfl⟩

/-- Fields the pan-inertia block never writes. -/
theorem OptimizedImageViewer.inertiaStep_pres_ov (s : OptimizedImageViewer.State) :
    (OptimizedImageViewer.inertiaStep s).1.target_scale = s.target_scale ∧
    (OptimizedImageViewer.inertiaStep s).1.current_scale = s.current_scale ∧
    (OptimizedImageViewer.inertiaStep s).1.navigation_animation
      = s.navigation_animation ∧
    (OptimizedImageViewer.inertiaStep s).1.is_panning = s.is_panning ∧
    (OptimizedImageViewer.inertiaStep s).1.background_opacity = s.background_opacity ∧
    (OptimizedImageViewer.inertiaStep s).1.target_background_opacity
      = s.target_background_opacity := by
  unfold OptimizedImageViewer.inertiaStep
  try dsimp only
  repeat' split
  all_goals exact ⟨rfl, rfl, rfl, rfl, rfl, rfl⟩

/-- Fields the convergence block never writes. -/
theorem OptimizedImageViewer.lerpStep_pres_ov (s : OptimizedImageViewer.State) :
    (OptimizedImageViewer.lerpStep s).1.target_scale = s.target_scale ∧
    (OptimizedImageViewer.lerpStep s).1.navigation_animation = s.navigation_animation ∧
    (OptimizedImageViewer.lerpStep s).1.pan_velocity = s.pan_velocity ∧
    (OptimizedImageViewer.lerpStep s).1.is_panning = s.is_panning ∧
    (OptimizedImageViewer.lerpStep s).1.target_offset = s.target_offset ∧
    (OptimizedImageViewer.lerpStep s).1.background_opacity = s.background_opacity ∧
    (OptimizedImageViewer.lerpStep s).1.target_background_opacity
      = s.target_background_opacity := by
  unfold OptimizedImageViewer.lerpStep
  try dsimp only
  repeat' split
  all_goals exact ⟨rfl, rfl, rfl, rfl, rfl, rfl, rfl⟩

/-- The scale update of the optimized convergence block: lerp above the epsilon,
exact snap below it. -/
theorem OptimizedImageViewer.lerpStep_current_scale_ov (s : OptimizedImageViewer.State) :
    (OptimizedImageViewer.lerpStep s).1.current_scale =
      (if (1/1000 : ℚ) < |s.target_scale - s.current_scale| then
        s.current_scale + (s.target_scale - s.current_scale) * (2/10)
      else s.target_scale) := by
  unfold OptimizedImageViewer.lerpStep
  try dsimp only
  repeat' split
  all_goals simp_all

/-- The velocity update of the optimized pan-inertia block: decay above the
epsilon, exact snap to zero below it. -/
theorem OptimizedImageViewer.inertiaStep_vel_ov (s : OptimizedImageViewer.State) :
    (OptimizedImageViewer.inertiaStep s).1.pan_velocity =
      (if s.is_panning = false then
        (if (1/10 : ℚ) < |s.pan_velocity.x| ∨ (1/10 : ℚ) < |s.pan_velocity.y| then
          ptScale (85/100) s.pan_velocity
        else ptZero)
      else s.pan_velocity) := by
  unfold OptimizedImageViewer.inertiaStep
  try dsimp only
  repeat' split
  all_goals simp_all

/-- The target-offset update of the optimized pan-inertia block. -/
theorem OptimizedImageViewer.inertiaStep_toff (s : OptimizedImageViewer.State) :
    (OptimizedImageViewer.inertiaStep s).1.target_offset =
      (if s.is_panning = false then
        (if (1/10 : ℚ) < |s.pan_velocity.x| ∨ (1/10 : ℚ) < |s.pan_velocity.y| then
          ptAdd s.target_offset s.pan_velocity
        else s.target_offset)
      else s.target_offset) := by
  unfold OptimizedImageViewer.inertiaStep
  try dsimp only
  repeat' split
  all_goals simp_all

/-- With the slide flag off, the optimized navigation block is a silent no-op. -/
theorem OptimizedImageViewer.navStep_off_ov (s : OptimizedImageViewer.State)
    (hn : s.navigation_animation = false) :
    OptimizedImageViewer.navStep s = (s, false) := by
  unfold OptimizedImageViewer.navStep
  rw [hn]
  rfl

/-- A running slide that does not complete this tick only advances its progress. -/
theorem OptimizedImageViewer.navStep_running (s : OptimizedImageViewer.State)
    (hn : s.navigation_animation = true)
    (hp : ¬ (1 : ℚ) ≤ s.navigation_progress + 1/10) :
    OptimizedImageViewer.navStep s =
      ({ s with navigation_progress := s.navigation_progress + 1/10 }, true) := by
  unfold OptimizedImageViewer.navStep
  rw [hn, if_pos rfl]
  dsimp only
  rw [if_neg hp]

/-- With a slide in progress, the optimized background fade is a silent no-op. -/
theorem OptimizedImageViewer.bgStep_nav (s : OptimizedImageViewer.State)
    (hn : s.navigation_animation = true) :
    OptimizedImageViewer.bgStep s = (s, false) := by
  unfold OptimizedImageViewer.bgStep
  rw [if_neg (by simp [hn])]

/-- With no slide in progress, the background opacity follows the decay filter
with an exact snap inside the 1.0 epsilon. -/
theorem OptimizedImageViewer.bgStep_fade (s : OptimizedImageViewer.State)
    (hn : s.navigation_animation = false) :
    (OptimizedImageViewer.bgStep s).1.background_opacity =
      (if 1 < |s.target_background_opacity - s.background_opacity| then
        s.background_opacity + (s.target_background_opacity - s.background_opacity) * (2/10)
      else s.target_background_opacity) := by
  unfold OptimizedImageViewer.bgStep
  rw [if_pos hn]
  try dsimp only
  repeat' split
  all_goals simp_all

/-- With the opening flag off, the optimized opening block is a silent no-op. -/
theorem OptimizedImageViewer.openingStep_off (s : OptimizedImageViewer.State)
    (h : s.opening_animation = false) :
    OptimizedImageViewer.openingStep s = (s, false) := by
  unfold OptimizedImageViewer.openingStep
  rw [h]
  rfl

/-- With the closing flag off, the optimized closing block is a silent no-op. -/
theorem OptimizedImageViewer.closingStep_off (s : OptimizedImageViewer.State)
    (h : s.closing_animation = false) :
    OptimizedImageViewer.closingStep s = (s, false) := by
  unfold OptimizedImageViewer.closingStep
  rw [h]
  rfl

/-- With the fade already on target and no slide, the background block is a
silent fixpoint. -/
theorem OptimizedImageViewer.bgStep_conv (s : OptimizedImageViewer.State)
    (hn : s.navigation_animation = false)
    (hb : s.background_opacity = s.target_background_opacity) :
    OptimizedImageViewer.bgStep s = (s, false) := by
  obtain ⟨px, rot, files, ci, cache, ts, cs, toff, coff, fs, na, nd, np, op, npx, ip,
    lmp, pv, oa, os, oo, ca, cls, clo, bg, tbg, aw, ah, ac, lr, ls, er⟩ := s
  dsimp only at hn hb
  subst hb
  simp [OptimizedImageViewer.bgStep, hn]

/-- With no panning and zero velocity, the inertia block is a silent fixpoint. -/
theorem OptimizedImageViewer.inertiaStep_conv (s : OptimizedImageViewer.State)
    (hp : s.is_panning = false) (hv : s.pan_velocity = ptZero) :
    OptimizedImageViewer.inertiaStep s = (s, false) := by
  obtain ⟨px, rot, files, ci, cache, ts, cs, toff, coff, fs, na, nd, np, op, npx, ip,
    lmp, pv, oa, os, oo, ca, cls, clo, bg, tbg, aw, ah, ac, lr, ls, er⟩ := s
  dsimp only at hp hv
  subst hv
  simp [OptimizedImageViewer.inertiaStep, hp, ptZero]

/-- With scale and offset exactly on target, the convergence block is a silent
fixpoint. -/
theorem OptimizedImageViewer.lerpStep_conv (s : OptimizedImageViewer.State)
    (hs : s.current_scale = s.target_scale) (ho : s.current_offset = s.target_offset) :
    OptimizedImageViewer.lerpStep s = (s, false) := by
  obtain ⟨px, rot, files, ci, cache, ts, cs, toff, coff, fs, na, nd, np, op, npx, ip,
    lmp, pv, oa, os, oo, ca, cls, clo, bg, tbg, aw, ah, ac, lr, ls, er⟩ := s
  dsimp only at hs ho
  subst hs
  subst ho
  unfold OptimizedImageViewer.lerpStep
  dsimp only
  norm_num [ptSub, ptZero]

end BlurSpec

namespace BlurSpec

/-! ### Composed per-tick facts -/

/-- A `BlurViewer` tick never touches the closing flag or the exit-request count. -/
theorem BlurViewer.animate_closing_exit (s : BlurViewer.State) :
    (BlurViewer.animate s).1.closing_animation = s.closing_animation ∧
    (BlurViewer.animate s).1.exit_requests = s.exit_requests := by
  unfold BlurViewer.animate
  dsimp only
  constructor
  · rw [(BlurViewer.lerpStep_pres _).1, (BlurViewer.inertiaStep_pres _).1,
        (BlurViewer.bgStep_pres _).1, (BlurViewer.closingStep_pres _).1,
        (BlurViewer.openingStep_pres _).1, (BlurViewer.navStep_pres s).1]
  · rw [(BlurViewer.lerpStep_pres _).2.1, (BlurViewer.inertiaStep_pres _).2.1,
        (BlurViewer.bgStep_pres _).2.1, (BlurViewer.closingStep_pres _).2.1,
        (BlurViewer.openingStep_pres _).2.1, (BlurViewer.navStep_pres s).2.1]

/-- With no slide in progress, a `BlurViewer` tick leaves `target_scale` alone,
moves `current_scale` by the decay filter (no exact snap), and keeps the slide
off. -/
theorem BlurViewer.animate_scale (s : BlurViewer.State)
    (hn : s.navigation_animation = false) :
    (BlurViewer.animate s).1.target_scale = s.target_scale ∧
    (BlurViewer.animate s).1.current_scale =
      (if (1/1000 : ℚ) < |s.target_scale - s.current_scale| then
        s.current_scale + (s.target_scale - s.current_scale) * BlurViewer.LERP_FACTOR
      else s.current_scale) ∧
    (BlurViewer.animate s).1.navigation_animation = false := by
  unfold BlurViewer.animate
  dsimp only
  rw [BlurViewer.navStep_off s hn]
  dsimp only
  refine ⟨?_, ?_, ?_⟩
  · rw [(BlurViewer.lerpStep_pres _).2.2.1, (BlurViewer.inertiaStep_pres _).2.2.1,
        (BlurViewer.bgStep_pres _).2.2.1, (BlurViewer.closingStep_pres _).2.2.1,
        (BlurViewer.openingStep_pres s).2.2.1]
  · rw [BlurViewer.lerpStep_current_scale,
        (BlurViewer.inertiaStep_pres _).2.2.1, (BlurViewer.bgStep_pres _).2.2.1,
        (BlurViewer.closingStep_pres _).2.2.1, (BlurViewer.openingStep_pres s).2.2.1,
        (BlurViewer.inertiaStep_pres _).2.2.2.1, (BlurViewer.bgStep_pres _).2.2.2.1,
        (BlurViewer.closingStep_pres _).2.2.2.1, (BlurViewer.openingStep_pres s).2.2.2.1]
  · rw [(BlurViewer.lerpStep_pres _).2.2.2.1, (BlurViewer.inertiaStep_pres _).2.2.2.2.1,
        (BlurViewer.bgStep_pres _).2.2.2.2.1, (BlurViewer.closingStep_pres _).2.2.2.2.1,
        (BlurViewer.openingStep_pres s).2.2.2.2.1]
    exact hn

/-- A `BlurViewer` tick multiplies the pan velocity by the friction while it is
above the epsilon and otherwise leaves it untouched — it is never snapped to
zero — and never changes the panning flag. -/
theorem BlurViewer.animate_velocity (s : BlurViewer.State) :
    (BlurViewer.animate s).1.pan_velocity =
      (if s.is_panning = false ∧
          ((1/10 : ℚ) < |s.pan_velocity.x| ∨ (1/10 : ℚ) < |s.pan_velocity.y|) then
        ptScale BlurViewer.PAN_FRICTION s.pan_velocity
      else s.pan_velocity) ∧
    (BlurViewer.animate s).1.is_panning = s.is_panning := by
  unfold BlurViewer.animate
  dsimp only
  constructor
  · rw [(BlurViewer.lerpStep_pres _).2.2.2.2.1, BlurViewer.inertiaStep_vel,
        (BlurViewer.bgStep_pres _).2.2.2.2.2.1, (BlurViewer.closingStep_pres _).2.2.2.2.2.1,
        (BlurViewer.openingStep_pres _).2.2.2.2.2.1, (BlurViewer.navStep_pres s).2.2.2.1,
        (BlurViewer.bgStep_pres _).2.2.2.2.2.2.1,
        (BlurViewer.closingStep_pres _).2.2.2.2.2.2.1,
        (BlurViewer.openingStep_pres _).2.2.2.2.2.2.1, (BlurViewer.navStep_pres s).2.2.2.2.1]
  · rw [(BlurViewer.lerpStep_pres _).2.2.2.2.2.1, (BlurViewer.inertiaStep_pres _).2.2.2.2.2.1,
        (BlurViewer.bgStep_pres _).2.2.2.2.2.2.1,
        (BlurViewer.closingStep_pres _).2.2.2.2.2.2.1,
        (BlurViewer.openingStep_pres _).2.2.2.2.2.2.1, (BlurViewer.navStep_pres s).2.2.2.2.1]

/-- An optimized tick never changes the target scale. -/
theorem OptimizedImageViewer.animate_target_scale (s : OptimizedImageViewer.State) :
    (OptimizedImageViewer.animate s).1.target_scale = s.target_scale := by
  unfold OptimizedImageViewer.animate
  dsimp only
  rw [(OptimizedImageViewer.lerpStep_pres_ov _).1, (OptimizedImageViewer.inertiaStep_pres_ov _).1,
      (OptimizedImageViewer.bgStep_pres_ov _).1, (OptimizedImageViewer.closingStep_pres_ov _).1,
      (OptimizedImageViewer.openingStep_pres_ov _).1, (OptimizedImageViewer.navStep_pres_ov s).1]

/-- After an optimized tick, the scale residual shrinks by the factor 0.8 while
it is above the epsilon, and snaps exactly to zero below it. -/
theorem OptimizedImageViewer.animate_scale_diff (s : OptimizedImageViewer.State) :
    (OptimizedImageViewer.animate s).1.target_scale
      - (OptimizedImageViewer.animate s).1.current_scale =
      (if (1/1000 : ℚ) < |s.target_scale - s.current_scale| then
        (s.target_scale - s.current_scale) * (4/5)
      else 0) := by
  unfold OptimizedImageViewer.animate
  dsimp only
  rw [(OptimizedImageViewer.lerpStep_pres_ov _).1, OptimizedImageViewer.lerpStep_current_scale_ov,
      (OptimizedImageViewer.inertiaStep_pres_ov _).1, (OptimizedImageViewer.bgStep_pres_ov _).1,
      (OptimizedImageViewer.closingStep_pres_ov _).1, (OptimizedImageViewer.openingStep_pres_ov _).1,
      (OptimizedImageViewer.navStep_pres_ov s).1,
      (OptimizedImageViewer.inertiaStep_pres_ov _).2.1, (OptimizedImageViewer.bgStep_pres_ov _).2.1,
      (OptimizedImageViewer.closingStep_pres_ov _).2.1,
      (OptimizedImageViewer.openingStep_pres_ov _).2.1, (OptimizedImageViewer.navStep_pres_ov s).2.1]
  by_cases hc : (1/1000 : ℚ) < |s.target_scale - s.current_scale|
  · rw [if_pos hc, if_pos hc]; ring
  · rw [if_neg hc, if_neg hc]; ring

/-- The optimized tick's velocity update: decay above the epsilon, exact snap to
zero below it (while not panning); the panning flag is untouched. -/
theorem OptimizedImageViewer.animate_velocity_ov (s : OptimizedImageViewer.State) :
    (OptimizedImageViewer.animate s).1.pan_velocity =
      (if s.is_panning = false then
        (if (1/10 : ℚ) < |s.pan_velocity.x| ∨ (1/10 : ℚ) < |s.pan_velocity.y| then
          ptScale (85/100) s.pan_velocity
        else ptZero)
      else s.pan_velocity) ∧
    (OptimizedImageViewer.animate s).1.is_panning = s.is_panning := by
  unfold OptimizedImageViewer.animate
  dsimp only
  constructor
  · rw [(OptimizedImageViewer.lerpStep_pres_ov _).2.2.1, OptimizedImageViewer.inertiaStep_vel_ov,
        (OptimizedImageViewer.bgStep_pres_ov _).2.2.2.1,
        (OptimizedImageViewer.closingStep_pres_ov _).2.2.2.1,
        (OptimizedImageViewer.openingStep_pres_ov _).2.2.2.1,
        (OptimizedImageViewer.navStep_pres_ov s).2.2.1,
        (OptimizedImageViewer.bgStep_pres_ov _).2.2.2.2.1,
        (OptimizedImageViewer.closingStep_pres_ov _).2.2.2.2.1,
        (OptimizedImageViewer.openingStep_pres_ov _).2.2.2.2.1,
        (OptimizedImageViewer.navStep_pres_ov s).2.2.2.1]
  · rw [(OptimizedImageViewer.lerpStep_pres_ov _).2.2.2.1,
        (OptimizedImageViewer.inertiaStep_pres_ov _).2.2.2.1,
        (OptimizedImageViewer.bgStep_pres_ov _).2.2.2.2.1,
        (OptimizedImageViewer.closingStep_pres_ov _).2.2.2.2.1,
        (OptimizedImageViewer.openingStep_pres_ov _).2.2.2.2.1,
        (OptimizedImageViewer.navStep_pres_ov s).2.2.2.1]

/-- The optimized tick's target-offset update: incremented by the velocity
exactly on ticks where the velocity is above the epsilon. -/
theorem OptimizedImageViewer.animate_target_offset (s : OptimizedImageViewer.State) :
    (OptimizedImageViewer.animate s).1.target_offset =
      (if s.is_panning = false then
        (if (1/10 : ℚ) < |s.pan_velocity.x| ∨ (1/10 : ℚ) < |s.pan_velocity.y| then
          ptAdd s.target_offset s.pan_velocity
        else s.target_offset)
      else s.target_offset) := by
  unfold OptimizedImageViewer.animate
  dsimp only
  rw [(OptimizedImageViewer.lerpStep_pres_ov _).2.2.2.2.1, OptimizedImageViewer.inertiaStep_toff,
      (OptimizedImageViewer.bgStep_pres_ov _).2.2.2.2.2,
      (OptimizedImageViewer.closingStep_pres_ov _).2.2.2.2.2.1,
      (OptimizedImageViewer.openingStep_pres_ov _).2.2.2.2.2.1,
      (OptimizedImageViewer.navStep_pres_ov s).2.2.2.2.1,
      (OptimizedImageViewer.bgStep_pres_ov _).2.2.2.1,
      (OptimizedImageViewer.closingStep_pres_ov _).2.2.2.1,
      (OptimizedImageViewer.openingStep_pres_ov _).2.2.2.1,
      (OptimizedImageViewer.navStep_pres_ov s).2.2.1,
      (OptimizedImageViewer.bgStep_pres_ov _).2.2.2.2.1,
      (OptimizedImageViewer.closingStep_pres_ov _).2.2.2.2.1,
      (OptimizedImageViewer.openingStep_pres_ov _).2.2.2.2.1,
      (OptimizedImageViewer.navStep_pres_ov s).2.2.2.1]

/-- On an optimized tick where a slide is in progress and does not complete, the
background opacity is untouched. -/
theorem OptimizedImageViewer.animate_bg_nav (s : OptimizedImageViewer.State)
    (hn : s.navigation_animation = true)
    (hp : ¬ (1 : ℚ) ≤ s.navigation_progress + 1/10) :
    (OptimizedImageViewer.animate s).1.background_opacity = s.background_opacity := by
  unfold OptimizedImageViewer.animate
  dsimp only
  rw [OptimizedImageViewer.navStep_running s hn hp]
  dsimp only
  rw [(OptimizedImageViewer.lerpStep_pres_ov _).2.2.2.2.2.1,
      (OptimizedImageViewer.inertiaStep_pres_ov _).2.2.2.2.1]
  have hnav3 : ((OptimizedImageViewer.closingStep (OptimizedImageViewer.openingStep
      ({ s with navigation_progress := s.navigation_progress + 1/10 }
        : OptimizedImageViewer.State)).1).1).navigation_animation = true := by
    rw [(OptimizedImageViewer.closingStep_pres_ov _).2.2.1,
        (OptimizedImageViewer.openingStep_pres_ov _).2.2.1]
    exact hn
  rw [OptimizedImageViewer.bgStep_nav _ hnav3]
  dsimp only
  rw [(OptimizedImageViewer.closingStep_pres_ov _).2.2.2.2.2.2.1,
      (OptimizedImageViewer.openingStep_pres_ov _).2.2.2.2.2.2.1]

/-- On an optimized tick with no slide in progress, the background opacity
follows the decay filter with an exact snap inside the 1.0 epsilon. -/
theorem OptimizedImageViewer.animate_bg_fade (s : OptimizedImageViewer.State)
    (hn : s.navigation_animation = false) :
    (OptimizedImageViewer.animate s).1.background_opacity =
      (if 1 < |s.target_background_opacity - s.background_opacity| then
        s.background_opacity + (s.target_background_opacity - s.background_opacity) * (2/10)
      else s.target_background_opacity) := by
  unfold OptimizedImageViewer.animate
  dsimp only
  rw [OptimizedImageViewer.navStep_off_ov s hn]
  dsimp only
  rw [(OptimizedImageViewer.lerpStep_pres_ov _).2.2.2.2.2.1,
      (OptimizedImageViewer.inertiaStep_pres_ov _).2.2.2.2.1]
  have hnav3 : ((OptimizedImageViewer.closingStep ((OptimizedImageViewer.openingStep s).1)).1).navigation_animation = false := by
    rw [(OptimizedImageViewer.closingStep_pres_ov _).2.2.1,
        (OptimizedImageViewer.openingStep_pres_ov _).2.2.1]
    exact hn
  rw [OptimizedImageViewer.bgStep_fade _ hnav3]
  rw [(OptimizedImageViewer.closingStep_pres_ov _).2.2.2.2.2.2.1,
      (OptimizedImageViewer.openingStep_pres_ov _).2.2.2.2.2.2.1,
      (OptimizedImageViewer.closingStep_pres_ov _).2.2.2.2.2.2.2,
      (OptimizedImageViewer.openingStep_pres_ov _).2.2.2.2.2.2.2]

/-- All convergence conditions at once: nothing is animating and every current
value sits exactly on its target. -/
def OptimizedImageViewer.Converged (s : OptimizedImageViewer.State) : Prop :=
  s.navigation_animation = false ∧ s.opening_animation = false ∧
  s.closing_animation = false ∧
  s.background_opacity = s.target_background_opacity ∧
  s.is_panning = false ∧ s.pan_velocity = ptZero ∧
  s.current_scale = s.target_scale ∧ s.current_offset = s.target_offset

/-- A fully converged optimized state is a fixpoint of the tick and requests no
repaint. -/
theorem OptimizedImageViewer.animate_conv (s : OptimizedImageViewer.State)
    (h : OptimizedImageViewer.Converged s) :
    OptimizedImageViewer.animate s = (s, false) := by
  obtain ⟨h1, h2, h3, h4, h5, h6, h7, h8⟩ := h
  unfold OptimizedImageViewer.animate
  dsimp only
  rw [OptimizedImageViewer.navStep_off_ov s h1]
  dsimp only
  rw [OptimizedImageViewer.openingStep_off s h2]
  dsimp only
  rw [OptimizedImageViewer.closingStep_off s h3]
  dsimp only
  rw [OptimizedImageViewer.bgStep_conv s h1 h4]
  dsimp only
  rw [OptimizedImageViewer.inertiaStep_conv s h5 h6]
  dsimp only
  rw [OptimizedImageViewer.lerpStep_conv s h7 h8]
  rfl

end BlurSpec

namespace BlurSpec

/-! ### Point algebra helpers -/

/-- Adding the zero point is the identity. -/
theorem ptAdd_zero (p : Pt) : ptAdd p ptZero = p := by
  cases p
  simp [ptAdd, ptZero]

/-- Point addition is associative. -/
theorem ptAdd_assoc (p q r : Pt) : ptAdd (ptAdd p q) r = ptAdd p (ptAdd q r) := by
  cases p; cases q; cases r
  simp [ptAdd]
  constructor <;> ring

/-- Scaling the zero point gives the zero point. -/
theorem ptScale_zero (c : ℚ) : ptScale c ptZero = ptZero := by
  simp [ptScale, ptZero]

/-! ### Concrete environments (a 1920×1080 primary screen whose available
geometry loses a 40 px task bar) -/

/-- A `BlurViewer` fresh from `__init__` on the concrete screen (no image yet). -/
def BlurViewer.base : BlurViewer.State :=
  { pixmap := none, movie := none, rotation := 0, image_files := [], current_index := -1,
    target_scale := 1, current_scale := 1, target_offset := ptZero,
    current_offset := ptZero, fit_scale := 1,
    navigation_animation := false, navigation_direction := 0, navigation_progress := 0,
    old_pixmap := none, new_pixmap := none,
    is_panning := false, last_mouse_pos := ptZero, pan_velocity := ptZero,
    opening_animation := true, opening_scale := 8/10, opening_opacity := 0,
    closing_animation := false, closing_scale := 1, closing_opacity := 1,
    background_opacity := 0, target_background_opacity := 200,
    is_fullscreen := false, saved_scale := 1, saved_offset := ptZero,
    geomW := 1920, geomH := 1080, geomC := ⟨960, 540⟩,
    availW := 1920, availH := 1040, availC := ⟨960, 520⟩,
    load_request := none, loads_started := 0, exit_requests := 0 }

/-- An `OptimizedImageViewer` fresh from `__init__` on the concrete screen. -/
def OptimizedImageViewer.base : OptimizedImageViewer.State :=
  { pixmap := none, rotation := 0, image_files := [], current_index := -1,
    image_cache := ImageCache.init Pix 7,
    target_scale := 1, current_scale := 1, target_offset := ptZero,
    current_offset := ptZero, fit_scale := 1,
    navigation_animation := false, navigation_direction := 0, navigation_progress := 0,
    old_pixmap := none, new_pixmap := none,
    is_panning := false, last_mouse_pos := ptZero, pan_velocity := ptZero,
    opening_animation := true, opening_scale := 8/10, opening_opacity := 0,
    closing_animation := false, closing_scale := 1, closing_opacity := 1,
    background_opacity := 0, target_background_opacity := 200,
    availW := 1920, availH := 1040, availC := ⟨960, 520⟩,
    load_request := none, loads_started := 0, exit_requests := 0 }

/-! ### The operation alphabet of the `BlurViewer` widget -/

/-- The modelled user/timer operations on a `BlurViewer`. -/
inductive BlurViewer.Op where
  | zoom (ns : ℚ) (fp : Option Pt)
  | fitScreen
  | fitFull
  | fitFullInstant
  | toggleFull
  | navigate (d : ℤ)
  | press (p : Pt) (b : BlurViewer.MouseButton)
  | move (p : Pt)
  | release (b : BlurViewer.MouseButton)
  | keyZoom (f : ℚ)
  | closeApp
  | timerTick
deriving DecidableEq

/-- Apply one modelled operation. -/
def BlurViewer.applyOp (s : BlurViewer.State) : BlurViewer.Op → BlurViewer.State
  | .zoom ns fp => BlurViewer.zoom_to s ns fp
  | .fitScreen => BlurViewer.fit_to_screen s
  | .fitFull => BlurViewer.fit_to_fullscreen s
  | .fitFullInstant => BlurViewer.fit_to_fullscreen_instant s
  | .toggleFull => BlurViewer.toggle_fullscreen s
  | .navigate d => BlurViewer.navigate_to_image s d
  | .press p b => BlurViewer.mousePressEvent s p b
  | .move p => BlurViewer.mouseMoveEvent s p
  | .release b => BlurViewer.mouseReleaseEvent s b
  | .keyZoom f => BlurViewer.keyboard_zoom s f
  | .closeApp => BlurViewer.close_application s
  | .timerTick => BlurViewer.tick s

/-- Apply a list of operations left to right. -/
def BlurViewer.applyOps (s : BlurViewer.State) (l : List BlurViewer.Op) :
    BlurViewer.State :=
  l.foldl BlurViewer.applyOp s

/-! ### Closing/exit preservation per operation -/

/-- `zoom_to` writes only the targets: closing state and exit count untouched. -/
theorem BlurViewer.zoom_to_pres (s : BlurViewer.State) (ns : ℚ) (fp : Option Pt) :
    (BlurViewer.zoom_to s ns fp).closing_animation = s.closing_animation ∧
    (BlurViewer.zoom_to s ns fp).exit_requests = s.exit_requests := by
  unfold BlurViewer.zoom_to
  try dsimp only
  repeat' split
  all_goals exact ⟨rfl, rfl⟩

/-- `fit_to_screen` never touches closing state or exit count. -/
theorem BlurViewer.fit_to_screen_pres (s : BlurViewer.State) :
    (BlurViewer.fit_to_screen s).closing_animation = s.closing_animation ∧
    (BlurViewer.fit_to_screen s).exit_requests = s.exit_requests := by
  unfold BlurViewer.fit_to_screen
  try dsimp only
  repeat' split
  all_goals exact ⟨rfl, rfl⟩

/-- `_fit_to_fullscreen` never touches closing state or exit count. -/
theorem BlurViewer.fit_to_fullscreen_pres (s : BlurViewer.State) :
    (BlurViewer.fit_to_fullscreen s).closing_animation = s.closing_animation ∧
    (BlurViewer.fit_to_fullscreen s).exit_requests = s.exit_requests := by
  unfold BlurViewer.fit_to_fullscreen
  try dsimp only
  repeat' split
  all_goals exact ⟨rfl, rfl⟩

/-- `_fit_to_fullscreen_instant` never touches closing state or exit count. -/
theorem BlurViewer.fit_to_fullscreen_instant_pres (s : BlurViewer.State) :
    (BlurViewer.fit_to_fullscreen_instant s).closing_animation = s.closing_animation ∧
    (BlurViewer.fit_to_fullscreen_instant s).exit_requests = s.exit_requests := by
  unfold BlurViewer.fit_to_fullscreen_instant
  try dsimp only
  repeat' split
  all_goals exact ⟨rfl, rfl⟩

/-- `toggle_fullscreen` never touches closing state or exit count. -/
theorem BlurViewer.toggle_fullscreen_pres (s : BlurViewer.State) :
    (BlurViewer.toggle_fullscreen s).closing_animation = s.closing_animation ∧
    (BlurViewer.toggle_fullscreen s).exit_requests = s.exit_requests := by
  unfold BlurViewer.toggle_fullscreen BlurViewer.fit_to_fullscreen
  try dsimp only
  repeat' split
  all_goals exact ⟨rfl, rfl⟩

/-- `navigate_to_image` never touches closing state or exit count. -/
theorem BlurViewer.navigate_pres (s : BlurViewer.State) (d : ℤ) :
    (BlurViewer.navigate_to_image s d).closing_animation = s.closing_animation ∧
    (BlurViewer.navigate_to_image s d).exit_requests = s.exit_requests := by
  unfold BlurViewer.navigate_to_image
  try dsimp only
  repeat' split
  all_goals exact ⟨rfl, rfl⟩

/-- Once closing, `close_application` is a no-op (no second exit request). -/
theorem BlurViewer.close_application_closed (s : BlurViewer.State)
    (h : s.closing_animation = true) : BlurViewer.close_application s = s := by
  unfold BlurViewer.close_application
  rw [h]
  rfl

/-- `mouseMoveEvent` never touches closing state or exit count. -/
theorem BlurViewer.mouseMoveEvent_pres (s : BlurViewer.State) (p : Pt) :
    (BlurViewer.mouseMoveEvent s p).closing_animation = s.closing_animation ∧
    (BlurViewer.mouseMoveEvent s p).exit_requests = s.exit_requests := by
  unfold BlurViewer.mouseMoveEvent
  try dsimp only
  repeat' split
  all_goals exact ⟨rfl, rfl⟩

/-- `mouseReleaseEvent` never touches closing state or exit count. -/
theorem BlurViewer.mouseReleaseEvent_pres (s : BlurViewer.State)
    (b : BlurViewer.MouseButton) :
    (BlurViewer.mouseReleaseEvent s b).closing_animation = s.closing_animation ∧
    (BlurViewer.mouseReleaseEvent s b).exit_requests = s.exit_requests := by
  cases b <;> exact ⟨rfl, rfl⟩

/-- `_keyboard_zoom` never touches closing state or exit count. -/
theorem BlurViewer.keyboard_zoom_pres (s : BlurViewer.State) (f : ℚ) :
    (BlurViewer.keyboard_zoom s f).closing_animation = s.closing_animation ∧
    (BlurViewer.keyboard_zoom s f).exit_requests = s.exit_requests := by
  unfold BlurViewer.keyboard_zoom
  split
  · exact BlurViewer.zoom_to_pres s _ _
  · exact ⟨rfl, rfl⟩

/-- Once the closing animation has started, every modelled operation keeps it
started and issues no further exit request. -/
theorem BlurViewer.applyOp_closing (s : BlurViewer.State) (op : BlurViewer.Op)
    (h : s.closing_animation = true) :
    (BlurViewer.applyOp s op).closing_animation = true ∧
    (BlurViewer.applyOp s op).exit_requests = s.exit_requests := by
  cases op with
  | zoom ns fp => exact ⟨(BlurViewer.zoom_to_pres s ns fp).1.trans h,
      (BlurViewer.zoom_to_pres s ns fp).2⟩
  | fitScreen => exact ⟨(BlurViewer.fit_to_screen_pres s).1.trans h,
      (BlurViewer.fit_to_screen_pres s).2⟩
  | fitFull => exact ⟨(BlurViewer.fit_to_fullscreen_pres s).1.trans h,
      (BlurViewer.fit_to_fullscreen_pres s).2⟩
  | fitFullInstant => exact ⟨(BlurViewer.fit_to_fullscreen_instant_pres s).1.trans h,
      (BlurViewer.fit_to_fullscreen_instant_pres s).2⟩
  | toggleFull => exact ⟨(BlurViewer.toggle_fullscreen_pres s).1.trans h,
      (BlurViewer.toggle_fullscreen_pres s).2⟩
  | navigate d => exact ⟨(BlurViewer.navigate_pres s d).1.trans h,
      (BlurViewer.navigate_pres s d).2⟩
  | press p b =>
      cases b with
      | left =>
          show (BlurViewer.mousePressEvent s p .left).closing_animation = true ∧
            (BlurViewer.mousePressEvent s p .left).exit_requests = s.exit_requests
          unfold BlurViewer.mousePressEvent
          dsimp only
          split
          · exact ⟨h, rfl⟩
          · split
            · rw [BlurViewer.close_application_closed s h]
              exact ⟨h, rfl⟩
            · exact ⟨h, rfl⟩
      | right =>
          show (BlurViewer.mousePressEvent s p .right).closing_animation = true ∧
            (BlurViewer.mousePressEvent s p .right).exit_requests = s.exit_requests
          unfold BlurViewer.mousePressEvent
          dsimp only
          rw [BlurViewer.close_application_closed s h]
          exact ⟨h, rfl⟩
  | move p => exact ⟨(BlurViewer.mouseMoveEvent_pres s p).1.trans h,
      (BlurViewer.mouseMoveEvent_pres s p).2⟩
  | release b => exact ⟨(BlurViewer.mouseReleaseEvent_pres s b).1.trans h,
      (BlurViewer.mouseReleaseEvent_pres s b).2⟩
  | keyZoom f => exact ⟨(BlurViewer.keyboard_zoom_pres s f).1.trans h,
      (BlurViewer.keyboard_zoom_pres s f).2⟩
  | closeApp =>
      show (BlurViewer.close_application s).closing_animation = true ∧
        (BlurViewer.close_application s).exit_requests = s.exit_requests
      rw [BlurViewer.close_application_closed s h]
      exact ⟨h, rfl⟩
  | timerTick => exact ⟨(BlurViewer.animate_closing_exit s).1.trans h,
      (BlurViewer.animate_closing_exit s).2⟩

end BlurSpec

namespace BlurSpec

/-! ### Scale-bounds machinery (C2) -/

/-- A zoom-or-tick operation. -/
inductive BlurViewer.ZTOp where
  | zoom (ns : ℚ) (fp : Option Pt)
  | timerTick
deriving DecidableEq

/-- Apply a zoom-or-tick operation. -/
def BlurViewer.applyZT (s : BlurViewer.State) : BlurViewer.ZTOp → BlurViewer.State
  | .zoom ns fp => BlurViewer.zoom_to s ns fp
  | .timerTick => BlurViewer.tick s

/-- Run a list of zoom-or-tick operations left to right. -/
def BlurViewer.runZT (s : BlurViewer.State) (l : List BlurViewer.ZTOp) :
    BlurViewer.State :=
  l.foldl BlurViewer.applyZT s

/-- Both scales lie within `[MIN_SCALE, MAX_SCALE]`. -/
def BlurViewer.InBounds (s : BlurViewer.State) : Prop :=
  BlurViewer.MIN_SCALE ≤ s.current_scale ∧ s.current_scale ≤ BlurViewer.MAX_SCALE ∧
  BlurViewer.MIN_SCALE ≤ s.target_scale ∧ s.target_scale ≤ BlurViewer.MAX_SCALE

instance (s : BlurViewer.State) : Decidable (BlurViewer.InBounds s) := by
  unfold BlurViewer.InBounds
  infer_instance

/-- `zoom_to` clamps the target into the scale bounds and never moves the
current scale or the slide flag. -/
theorem BlurViewer.zoom_to_scales (s : BlurViewer.State) (ns : ℚ) (fp : Option Pt) :
    (BlurViewer.zoom_to s ns fp).current_scale = s.current_scale ∧
    ((BlurViewer.zoom_to s ns fp).target_scale = s.target_scale ∨
      (BlurViewer.MIN_SCALE ≤ (BlurViewer.zoom_to s ns fp).target_scale ∧
       (BlurViewer.zoom_to s ns fp).target_scale ≤ BlurViewer.MAX_SCALE)) ∧
    (BlurViewer.zoom_to s ns fp).navigation_animation = s.navigation_animation := by
  unfold BlurViewer.zoom_to
  split
  · exact ⟨rfl, Or.inl rfl, rfl⟩
  · dsimp only
    refine ⟨?_, Or.inr ⟨?_, ?_⟩, ?_⟩
    · repeat' split
      all_goals rfl
    · repeat' split
      all_goals exact le_max_left _ _
    · repeat' split
      all_goals
        exact max_le (by norm_num [BlurViewer.MIN_SCALE, BlurViewer.MAX_SCALE])
          (min_le_left _ _)
    · repeat' split
      all_goals rfl

/-- A zoom-or-tick step preserves the scale bounds and the absence of a slide. -/
theorem BlurViewer.applyZT_bounds (s : BlurViewer.State) (op : BlurViewer.ZTOp)
    (h : BlurViewer.InBounds s) (hn : s.navigation_animation = false) :
    BlurViewer.InBounds (BlurViewer.applyZT s op) ∧
    (BlurViewer.applyZT s op).navigation_animation = false := by
  obtain ⟨h1, h2, h3, h4⟩ := h
  cases op with
  | zoom ns fp =>
      simp only [BlurViewer.applyZT]
      obtain ⟨hc, ht, hnav⟩ := BlurViewer.zoom_to_scales s ns fp
      refine ⟨⟨hc ▸ h1, hc ▸ h2, ?_, ?_⟩, hnav.trans hn⟩
      · rcases ht with ht | ht
        · rw [ht]; exact h3
        · exact ht.1
      · rcases ht with ht | ht
        · rw [ht]; exact h4
        · exact ht.2
  | timerTick =>
      simp only [BlurViewer.applyZT, BlurViewer.tick]
      obtain ⟨hts, hcs, hnav⟩ := BlurViewer.animate_scale s hn
      refine ⟨⟨?_, ?_, hts ▸ h3, hts ▸ h4⟩, hnav⟩
      · rw [hcs]
        split
        · unfold BlurViewer.LERP_FACTOR BlurViewer.MIN_SCALE at *
          nlinarith
        · exact h1
      · rw [hcs]
        split
        · unfold BlurViewer.LERP_FACTOR BlurViewer.MAX_SCALE at *
          nlinarith
        · exact h2

/-! ### Scale-residual iteration machinery (C3) -/

/-- The per-tick transformation of the optimized viewer's scale residual
`target_scale - current_scale`. -/
def OptimizedImageViewer.scaleDiffStep (d : ℚ) : ℚ :=
  if (1/1000 : ℚ) < |d| then d * (4/5) else 0

/-- A zero residual stays zero. -/
theorem OptimizedImageViewer.scaleDiffStep_zero :
    OptimizedImageViewer.scaleDiffStep 0 = 0 := by
  unfold OptimizedImageViewer.scaleDiffStep
  norm_num

/-- Iterating from a zero residual stays zero. -/
theorem OptimizedImageViewer.scaleDiffStep_iter_zero (n : ℕ) :
    OptimizedImageViewer.scaleDiffStep^[n] 0 = 0 := by
  induction n with
  | zero => rfl
  | succ n ih =>
      rw [Function.iterate_succ_apply', ih, OptimizedImageViewer.scaleDiffStep_zero]

/-- One residual step shrinks the absolute value by at least the factor 0.8. -/
theorem OptimizedImageViewer.scaleDiffStep_abs (d : ℚ) :
    |OptimizedImageViewer.scaleDiffStep d| ≤ |d| * (4/5) := by
  unfold OptimizedImageViewer.scaleDiffStep
  split
  · rw [abs_mul]
    have : |(4/5 : ℚ)| = 4/5 := by norm_num
    rw [this]
  · simp [abs_nonneg]

/-- The iterated residual is bounded by the geometric envelope. -/
theorem OptimizedImageViewer.scaleDiffStep_iter_abs (d : ℚ) (n : ℕ) :
    |OptimizedImageViewer.scaleDiffStep^[n] d| ≤ |d| * (4/5)^n := by
  induction n with
  | zero => simp
  | succ n ih =>
      rw [Function.iterate_succ_apply']
      calc |OptimizedImageViewer.scaleDiffStep (OptimizedImageViewer.scaleDiffStep^[n] d)|
          ≤ |OptimizedImageViewer.scaleDiffStep^[n] d| * (4/5) :=
            OptimizedImageViewer.scaleDiffStep_abs _
        _ ≤ (|d| * (4/5)^n) * (4/5) := by
            have h45 : (0 : ℚ) ≤ 4/5 := by norm_num
            exact mul_le_mul_of_nonneg_right ih h45
        _ = |d| * (4/5)^(n+1) := by ring

/-- The iterated residual reaches exactly zero after finitely many steps and
stays there. -/
theorem OptimizedImageViewer.scaleDiffStep_eventually_zero (d : ℚ) :
    ∃ N, ∀ n, N ≤ n → OptimizedImageViewer.scaleDiffStep^[n] d = 0 := by
  rcases eq_or_ne d 0 with rfl | hd
  · exact ⟨0, fun n _ => OptimizedImageViewer.scaleDiffStep_iter_zero n⟩
  · have habs : (0 : ℚ) < |d| := abs_pos.mpr hd
    have hε : (0 : ℚ) < (1/1000) / |d| := by positivity
    obtain ⟨N, hN⟩ := exists_pow_lt_of_lt_one hε (by norm_num : (4/5 : ℚ) < 1)
    have hsmall : |OptimizedImageViewer.scaleDiffStep^[N] d| ≤ 1/1000 := by
      have h1 := OptimizedImageViewer.scaleDiffStep_iter_abs d N
      have h2 : |d| * (4/5)^N < |d| * ((1/1000) / |d|) :=
        mul_lt_mul_of_pos_left hN habs
      have h3 : |d| * ((1/1000) / |d|) = 1/1000 := by
        field_simp
        ring
      linarith
    have hzero : OptimizedImageViewer.scaleDiffStep^[N+1] d = 0 := by
      rw [Function.iterate_succ_apply']
      unfold OptimizedImageViewer.scaleDiffStep
      rw [if_neg (by push_neg; exact hsmall)]
    refine ⟨N+1, fun n hn => ?_⟩
    obtain ⟨k, rfl⟩ : ∃ k, n = k + (N+1) := ⟨n - (N+1), by omega⟩
    rw [Function.iterate_add_apply, hzero,
      OptimizedImageViewer.scaleDiffStep_iter_zero]

/-- The target scale is constant along optimized ticks. -/
theorem OptimizedImageViewer.tick_target_scale_iter (s : OptimizedImageViewer.State)
    (n : ℕ) :
    (OptimizedImageViewer.tick^[n] s).target_scale = s.target_scale := by
  induction n with
  | zero => rfl
  | succ n ih =>
      rw [Function.iterate_succ_apply']
      exact (OptimizedImageViewer.animate_target_scale _).trans ih

/-- The scale residual along optimized ticks is the iterated residual step. -/
theorem OptimizedImageViewer.tick_scale_diff_iter (s : OptimizedImageViewer.State)
    (n : ℕ) :
    (OptimizedImageViewer.tick^[n] s).target_scale
      - (OptimizedImageViewer.tick^[n] s).current_scale =
      OptimizedImageViewer.scaleDiffStep^[n] (s.target_scale - s.current_scale) := by
  induction n with
  | zero => rfl
  | succ n ih =>
      rw [Function.iterate_succ_apply', Function.iterate_succ_apply']
      rw [show OptimizedImageViewer.tick (OptimizedImageViewer.tick^[n] s)
        = (OptimizedImageViewer.animate (OptimizedImageViewer.tick^[n] s)).1 from rfl]
      rw [OptimizedImageViewer.animate_scale_diff, ih]
      rfl

/-! ### Pan-velocity iteration machinery (C5) -/

/-- The per-tick transformation of the `BlurViewer.py` pan velocity (while not
panning): decay above the epsilon, NO snap below it. -/
def BlurViewer.velStep (v : Pt) : Pt :=
  if (1/10 : ℚ) < |v.x| ∨ (1/10 : ℚ) < |v.y| then
    ptScale BlurViewer.PAN_FRICTION v
  else v

/-- The per-tick transformation of the optimized pan velocity (while not
panning): decay above the epsilon, snap to exactly zero below it. -/
def OptimizedImageViewer.velStep (v : Pt) : Pt :=
  if (1/10 : ℚ) < |v.x| ∨ (1/10 : ℚ) < |v.y| then ptScale (85/100) v else ptZero

/-- While not panning, the `BlurViewer` pan velocity follows `velStep` under
iterated ticks, and the panning flag stays off. -/
theorem BlurViewer.tick_velocity_iter (s : BlurViewer.State)
    (hp : s.is_panning = false) (n : ℕ) :
    (BlurViewer.tick^[n] s).pan_velocity = BlurViewer.velStep^[n] s.pan_velocity ∧
    (BlurViewer.tick^[n] s).is_panning = false := by
  induction n with
  | zero => exact ⟨rfl, hp⟩
  | succ n ih =>
      obtain ⟨hv, hp'⟩ := ih
      rw [Function.iterate_succ_apply', Function.iterate_succ_apply']
      rw [show BlurViewer.tick (BlurViewer.tick^[n] s)
        = (BlurViewer.animate (BlurViewer.tick^[n] s)).1 from rfl]
      obtain ⟨h1, h2⟩ := BlurViewer.animate_velocity (BlurViewer.tick^[n] s)
      constructor
      · rw [h1, hv, hp']
        unfold BlurViewer.velStep
        simp only [eq_self_iff_true, true_and]
      · rw [h2, hp']

/-- While not panning, the optimized pan velocity follows its `velStep` under
iterated ticks, and the panning flag stays off. -/
theorem OptimizedImageViewer.tick_velocity_iter_ov (s : OptimizedImageViewer.State)
    (hp : s.is_panning = false) (n : ℕ) :
    (OptimizedImageViewer.tick^[n] s).pan_velocity
      = OptimizedImageViewer.velStep^[n] s.pan_velocity ∧
    (OptimizedImageViewer.tick^[n] s).is_panning = false := by
  induction n with
  | zero => exact ⟨rfl, hp⟩
  | succ n ih =>
      obtain ⟨hv, hp'⟩ := ih
      rw [Function.iterate_succ_apply', Function.iterate_succ_apply']
      rw [show OptimizedImageViewer.tick (OptimizedImageViewer.tick^[n] s)
        = (OptimizedImageViewer.animate (OptimizedImageViewer.tick^[n] s)).1 from rfl]
      obtain ⟨h1, h2⟩ := OptimizedImageViewer.animate_velocity_ov
        (OptimizedImageViewer.tick^[n] s)
      constructor
      · rw [h1, hv, hp', if_pos rfl]
        rfl
      · rw [h2, hp']

end BlurSpec

namespace BlurSpec

/-! ### Drag machinery (C6) -/

/-- A full drag gesture: left press at `p0`, a sequence of move events, left
release. -/
def BlurViewer.processDrag (s : BlurViewer.State) (p0 : Pt) (ps : List Pt) :
    BlurViewer.State :=
  BlurViewer.mouseReleaseEvent
    (ps.foldl BlurViewer.mouseMoveEvent (BlurViewer.mousePressEvent s p0 .left)) .left

/-- The per-move deltas of a drag: each move's position minus the previous one. -/
def BlurViewer.dragDeltas (p0 : Pt) : List Pt → List Pt
  | [] => []
  | q :: rest => ptSub q p0 :: BlurViewer.dragDeltas q rest

/-- Sum of a list of points. -/
def ptSum (l : List Pt) : Pt := l.foldr ptAdd ptZero

/-- The delta of the final move of a drag (zero for an empty drag). -/
def BlurViewer.lastDelta (p0 : Pt) (ps : List Pt) : Pt :=
  (BlurViewer.dragDeltas p0 ps).getLastD ptZero

/-- A left press inside the image arms panning at the press point with zero
velocity. -/
theorem BlurViewer.mousePressEvent_in (s : BlurViewer.State) (p0 : Pt)
    (hin : BlurViewer.point_in_image s p0 = true) :
    BlurViewer.mousePressEvent s p0 .left =
      { s with is_panning := true, last_mouse_pos := p0, pan_velocity := ptZero } := by
  unfold BlurViewer.mousePressEvent
  dsimp only
  rw [if_pos hin]

/-- The default of `getLastD` is irrelevant on a nonempty list. -/
theorem getLastD_ne_nil {α : Type} (l : List α) (d d' : α) (h : l ≠ []) :
    l.getLastD d = l.getLastD d' := by
  cases l with
  | nil => exact absurd rfl h
  | cons a t => rw [List.getLastD_cons, List.getLastD_cons]

/-- Folding a list of move events over a panning state: offsets accumulate the
deltas, the velocity is 0.6 times the final delta, panning persists, and the
last mouse position is the last move position. -/
theorem BlurViewer.movesFold (ps : List Pt) :
    ∀ t : BlurViewer.State, t.is_panning = true →
      ((ps.foldl BlurViewer.mouseMoveEvent t).current_offset
        = ptAdd t.current_offset (ptSum (BlurViewer.dragDeltas t.last_mouse_pos ps))) ∧
      ((ps.foldl BlurViewer.mouseMoveEvent t).pan_velocity
        = if ps = [] then t.pan_velocity
          else ptScale (6/10) (BlurViewer.lastDelta t.last_mouse_pos ps)) ∧
      ((ps.foldl BlurViewer.mouseMoveEvent t).is_panning = true) ∧
      ((ps.foldl BlurViewer.mouseMoveEvent t).last_mouse_pos
        = ps.getLastD t.last_mouse_pos) := by
  induction ps with
  | nil =>
      intro t ht
      refine ⟨?_, ?_, ht, rfl⟩
      · show t.current_offset = ptAdd t.current_offset ptZero
        rw [ptAdd_zero]
      · show t.pan_velocity = if ([] : List Pt) = [] then t.pan_velocity else _
        rw [if_pos rfl]
  | cons q rest ih =>
      intro t ht
      rw [List.foldl_cons]
      have hmv : BlurViewer.mouseMoveEvent t q =
          { t with current_offset := ptAdd t.current_offset (ptSub q t.last_mouse_pos),
                   target_offset := ptAdd t.current_offset (ptSub q t.last_mouse_pos),
                   pan_velocity := ptScale (6/10) (ptSub q t.last_mouse_pos),
                   last_mouse_pos := q } := by
        unfold BlurViewer.mouseMoveEvent
        rw [ht]
        rfl
      rw [hmv]
      obtain ⟨ih1, ih2, ih3, ih4⟩ := ih
        { t with current_offset := ptAdd t.current_offset (ptSub q t.last_mouse_pos),
                 target_offset := ptAdd t.current_offset (ptSub q t.last_mouse_pos),
                 pan_velocity := ptScale (6/10) (ptSub q t.last_mouse_pos),
                 last_mouse_pos := q } ht
      refine ⟨?_, ?_, ih3, ?_⟩
      · rw [ih1]
        show ptAdd (ptAdd t.current_offset (ptSub q t.last_mouse_pos))
            (ptSum (BlurViewer.dragDeltas q rest))
          = ptAdd t.current_offset
            (ptSum (ptSub q t.last_mouse_pos :: BlurViewer.dragDeltas q rest))
        rw [show ptSum (ptSub q t.last_mouse_pos :: BlurViewer.dragDeltas q rest)
          = ptAdd (ptSub q t.last_mouse_pos) (ptSum (BlurViewer.dragDeltas q rest))
          from rfl]
        rw [ptAdd_assoc]
      · rw [ih2]
        cases rest with
        | nil =>
            rw [if_pos rfl, if_neg (by simp)]
            rfl
        | cons r rest' =>
            rw [if_neg (by simp), if_neg (by simp)]
            show ptScale (6/10) (BlurViewer.lastDelta q (r :: rest'))
              = ptScale (6/10) (BlurViewer.lastDelta t.last_mouse_pos (q :: r :: rest'))
            unfold BlurViewer.lastDelta
            rw [show BlurViewer.dragDeltas t.last_mouse_pos (q :: r :: rest')
              = ptSub q t.last_mouse_pos :: BlurViewer.dragDeltas q (r :: rest') from rfl]
            rw [List.getLastD_cons]
            rw [getLastD_ne_nil (BlurViewer.dragDeltas q (r :: rest')) ptZero
              (ptSub q t.last_mouse_pos) (by unfold BlurViewer.dragDeltas; simp)]
      · rw [ih4]
        show rest.getLastD q = (q :: rest).getLastD t.last_mouse_pos
        rw [List.getLastD_cons]

/-! ### Zoom focus machinery (C1, C4) -/

/-- The clamped scale is strictly positive. -/
theorem clampScale_pos (a : ℚ) :
    0 < max BlurViewer.MIN_SCALE (min BlurViewer.MAX_SCALE a) :=
  lt_of_lt_of_le (by norm_num [BlurViewer.MIN_SCALE]) (le_max_left _ _)

/-- The focus-preserving zoom algebra: dividing out the new scale recovers the
image-space coordinate of the focus point. -/
theorem focus_algebra (fx ox c q : ℚ) (hc : c ≠ 0) (hq : q ≠ 0) :
    (fx - ox) / c = (fx - (fx - (fx - ox) * (q / c))) / q := by
  field_simp
  ring

/-- The fullscreen fit scale of the current image under the current rotation:
`min(screenW/effW, screenH/effH)` over the full screen geometry. -/
def BlurViewer.fullscreenFitScale (s : BlurViewer.State) : ℚ :=
  min (s.geomW / (BlurViewer.calculateEffectiveDimensions s).1)
    (s.geomH / (BlurViewer.calculateEffectiveDimensions s).2)

/-! ### Cache capacity is constant along a run (C10) -/

/-- A cache step never changes `max_size`. -/
theorem cacheStep_max_size {α : Type} (c : ImageCache α) (op : CacheOp α) :
    (cacheStep c op).max_size = c.max_size := by
  cases op with
  | get k =>
      show ((c.get k).2).max_size = c.max_size
      unfold ImageCache.get
      cases assocLookup c.cache k <;> rfl
  | put k v =>
      show (c.put k v).max_size = c.max_size
      unfold ImageCache.put
      repeat' split
      all_goals rfl

/-- The capacity after a run is the capacity the cache was created with. -/
theorem runCache_max_size {α : Type} (maxSize : ℕ) (ops : List (CacheOp α)) :
    (runCache α maxSize ops).max_size = maxSize := by
  unfold runCache
  suffices h : ∀ (l : List (CacheOp α)) (c : ImageCache α),
      (l.foldl cacheStep c).max_size = c.max_size by
    rw [h]
    rfl
  intro l
  induction l with
  | nil => intro c; rfl
  | cons op rest ih =>
      intro c
      rw [List.foldl_cons, ih, cacheStep_max_size]

end BlurSpec

namespace BlurSpec

/-! ### Concrete states for witnesses and counterexamples

The core rational arithmetic operations are sealed `irreducible` by default,
which blocks `decide` from evaluating concrete states; we unseal them locally
for the remainder of the development. -/

section

attribute [local semireducible] Rat.mul Rat.add Rat.sub Rat.inv

/-- A `BlurViewer` showing a 100×100 image at scale 1, centered at the origin. -/
def bvImage : BlurViewer.State := { BlurViewer.base with pixmap := some ⟨100, 100⟩ }

/-- A fullscreen `BlurViewer` showing a tiny 10×10 image at its fullscreen fit
scale 108. -/
def bvTinyFS : BlurViewer.State :=
  { BlurViewer.base with pixmap := some ⟨10, 10⟩, is_fullscreen := true,
                         current_scale := 108, target_scale := 108,
                         opening_animation := false, background_opacity := 200 }

/-- A windowed `BlurViewer` showing a tiny 10×10 image, otherwise idle. -/
def bvTiny : BlurViewer.State :=
  { BlurViewer.base with pixmap := some ⟨10, 10⟩,
                         opening_animation := false, background_opacity := 200 }

/-- An otherwise idle `BlurViewer` whose target scale differs from the current
scale by 1/2000 — inside the 0.001 epsilon. -/
def bvStuck : BlurViewer.State :=
  { BlurViewer.base with pixmap := some ⟨100, 100⟩, target_scale := 1 + 1/2000,
                         opening_animation := false, background_opacity := 200 }

/-- An otherwise idle `BlurViewer` with a navigation slide in progress and the
background fade far from its target. -/
def bvNavBg : BlurViewer.State :=
  { BlurViewer.base with pixmap := some ⟨100, 100⟩, navigation_animation := true,
                         opening_animation := false }

/-- An otherwise idle `BlurViewer` with pan velocity (10, 0). -/
def bvInertia : BlurViewer.State :=
  { BlurViewer.base with pixmap := some ⟨100, 100⟩, pan_velocity := ⟨10, 0⟩,
                         opening_animation := false, background_opacity := 200 }

/-- A `BlurViewer` with directory data and a slide already in progress. -/
def bvNavBusy : BlurViewer.State :=
  { BlurViewer.base with pixmap := some ⟨100, 100⟩, image_files := [0, 1, 2],
                         current_index := 0, navigation_animation := true }

/-- A `BlurViewer` whose closing animation has started (one exit request issued). -/
def bvClosing : BlurViewer.State :=
  { BlurViewer.base with closing_animation := true, target_background_opacity := 0,
                         exit_requests := 1 }

/-- An otherwise idle optimized viewer with pan velocity (10, 0). -/
def ovInertia : OptimizedImageViewer.State :=
  { OptimizedImageViewer.base with pixmap := some ⟨100, 100⟩, pan_velocity := ⟨10, 0⟩,
                                   opening_animation := false,
                                   background_opacity := 200 }

/-- A fully converged optimized viewer. -/
def ovConv : OptimizedImageViewer.State :=
  { OptimizedImageViewer.base with pixmap := some ⟨100, 100⟩,
                                   opening_animation := false,
                                   background_opacity := 200 }

/-- An optimized viewer with a slide in progress. -/
def ovNavBg : OptimizedImageViewer.State :=
  { OptimizedImageViewer.base with pixmap := some ⟨100, 100⟩,
                                   navigation_animation := true,
                                   opening_animation := false }

/-- An optimized viewer with directory data and a slide already in progress. -/
def ovNavBusy : OptimizedImageViewer.State :=
  { OptimizedImageViewer.base with pixmap := some ⟨100, 100⟩, image_files := [0, 1, 2],
                                   current_index := 0, navigation_animation := true }

/-! ## The claims -/

/-- C1 — Focus-preserving zoom: for a loaded image, a positive current scale
and a focus point inside the on-screen image bounds, `zoom_to` keeps the
image-space point under the focus point unchanged (per axis, using the final
clamped target scale), and it mutates only `target_scale` and `target_offset`,
never `current_scale` or `current_offset`. -/
theorem C1_focus_preserving_zoom (s : BlurViewer.State) (fp : Pt) (ns : ℚ)
    (himg : ¬ (s.pixmap = none ∧ s.movie = none))
    (hscale : 0 < s.current_scale)
    (hfp : BlurViewer.point_in_image s fp = true) :
    ((BlurViewer.zoom_to s ns (some fp)).current_scale = s.current_scale ∧
     (BlurViewer.zoom_to s ns (some fp)).current_offset = s.current_offset ∧
     BlurViewer.zoom_to s ns (some fp) =
       { s with target_scale := (BlurViewer.zoom_to s ns (some fp)).target_scale,
                target_offset := (BlurViewer.zoom_to s ns (some fp)).target_offset }) ∧
    ((fp.x - s.current_offset.x) / s.current_scale =
       (fp.x - (BlurViewer.zoom_to s ns (some fp)).target_offset.x) /
         (BlurViewer.zoom_to s ns (some fp)).target_scale ∧
     (fp.y - s.current_offset.y) / s.current_scale =
       (fp.y - (BlurViewer.zoom_to s ns (some fp)).target_offset.y) /
         (BlurViewer.zoom_to s ns (some fp)).target_scale) := by
  unfold BlurViewer.zoom_to
  rw [if_neg himg]
  dsimp only
  rw [if_pos hfp, if_pos hscale]
  refine ⟨⟨rfl, rfl, rfl⟩, ?_, ?_⟩
  · exact focus_algebra fp.x s.current_offset.x s.current_scale _
      (ne_of_gt hscale) (ne_of_gt (clampScale_pos _))
  · exact focus_algebra fp.y s.current_offset.y s.current_scale _
      (ne_of_gt hscale) (ne_of_gt (clampScale_pos _))

/-- Witness for C1 at a concrete state: 100×100 image at scale 1 centered at the
origin, zooming to scale 2 focused at (10, 10). -/
theorem C1_focus_preserving_zoom_witness :
    ((BlurViewer.zoom_to bvImage 2 (some ⟨10, 10⟩)).current_scale
        = bvImage.current_scale ∧
     (BlurViewer.zoom_to bvImage 2 (some ⟨10, 10⟩)).current_offset
        = bvImage.current_offset ∧
     BlurViewer.zoom_to bvImage 2 (some ⟨10, 10⟩) =
       { bvImage with
         target_scale := (BlurViewer.zoom_to bvImage 2 (some ⟨10, 10⟩)).target_scale,
         target_offset :=
           (BlurViewer.zoom_to bvImage 2 (some ⟨10, 10⟩)).target_offset }) ∧
    (((⟨10, 10⟩ : Pt).x - bvImage.current_offset.x) / bvImage.current_scale =
       ((⟨10, 10⟩ : Pt).x
          - (BlurViewer.zoom_to bvImage 2 (some ⟨10, 10⟩)).target_offset.x) /
         (BlurViewer.zoom_to bvImage 2 (some ⟨10, 10⟩)).target_scale ∧
     ((⟨10, 10⟩ : Pt).y - bvImage.current_offset.y) / bvImage.current_scale =
       ((⟨10, 10⟩ : Pt).y
          - (BlurViewer.zoom_to bvImage 2 (some ⟨10, 10⟩)).target_offset.y) /
         (BlurViewer.zoom_to bvImage 2 (some ⟨10, 10⟩)).target_scale) :=
  C1_focus_preserving_zoom bvImage ⟨10, 10⟩ 2 (by decide) (by decide) (by decide)

/-- C2 (amended) — Scale bounds under zooms and ticks: starting from any state
whose scales are within `[MIN_SCALE, MAX_SCALE]` and with no slide in progress,
every sequence of `zoom_to` calls and `animate` ticks keeps both scales within
the bounds. (The original claim fails for fit-to-fullscreen and image loads;
see the counterexample.) -/
theorem C2_scale_bounds_amended (s : BlurViewer.State) (h : BlurViewer.InBounds s)
    (hn : s.navigation_animation = false) (l : List BlurViewer.ZTOp) :
    BlurViewer.InBounds (BlurViewer.runZT s l) := by
  suffices h' : ∀ (l : List BlurViewer.ZTOp) (s : BlurViewer.State),
      BlurViewer.InBounds s → s.navigation_animation = false →
      BlurViewer.InBounds (BlurViewer.runZT s l) ∧
        (BlurViewer.runZT s l).navigation_animation = false from (h' l s h hn).1
  intro l
  induction l with
  | nil => intro s h hn; exact ⟨h, hn⟩
  | cons op rest ih =>
      intro s h hn
      obtain ⟨h1, h2⟩ := BlurViewer.applyZT_bounds s op h hn
      exact ih _ h1 h2

/-- Witness for C2 (amended): a zoom to 5 then a tick from the base image state. -/
theorem C2_scale_bounds_amended_witness :
    BlurViewer.InBounds (BlurViewer.runZT bvImage
      [BlurViewer.ZTOp.zoom 5 none, BlurViewer.ZTOp.timerTick]) :=
  C2_scale_bounds_amended bvImage (by decide) (by decide) _

/-- Counterexample to C2 as stated: from the in-bounds idle state showing a
10×10 image, the listed operation `_fit_to_fullscreen_instant` drives both
scales to 108 > MAX_SCALE, observed at the next tick. -/
theorem C2_scale_bounds_counterexample :
    BlurViewer.InBounds bvTiny ∧
    (BlurViewer.tick (BlurViewer.fit_to_fullscreen_instant bvTiny)).current_scale
      = 108 ∧
    (BlurViewer.tick (BlurViewer.fit_to_fullscreen_instant bvTiny)).target_scale
      = 108 ∧
    ¬ (BlurViewer.tick
        (BlurViewer.fit_to_fullscreen_instant bvTiny)).current_scale
      ≤ BlurViewer.MAX_SCALE := by
  refine ⟨by decide, by decide, by decide, by decide⟩

/-- C4 (amended) — Fullscreen floor up to the MAX_SCALE clamp: in fullscreen
mode with a loaded image of positive effective dimensions, `zoom_to` yields a
target scale of at least `min(fullscreenFitScale, MAX_SCALE)`.  (The original
unconditional floor fails when the fit scale itself exceeds MAX_SCALE; see the
counterexample.) -/
theorem C4_fullscreen_floor_amended (s : BlurViewer.State) (ns : ℚ) (fp : Option Pt)
    (hfs : s.is_fullscreen = true)
    (himg : ¬ (s.pixmap = none ∧ s.movie = none))
    (heff : 0 < (BlurViewer.calculateEffectiveDimensions s).1 ∧
            0 < (BlurViewer.calculateEffectiveDimensions s).2) :
    min (BlurViewer.fullscreenFitScale s) BlurViewer.MAX_SCALE ≤
      (BlurViewer.zoom_to s ns fp).target_scale := by
  unfold BlurViewer.zoom_to
  rw [if_neg himg]
  dsimp only
  rw [hfs, if_pos rfl, if_pos heff]
  have key : min (BlurViewer.fullscreenFitScale s) BlurViewer.MAX_SCALE ≤
      max BlurViewer.MIN_SCALE (min BlurViewer.MAX_SCALE
        (max (BlurViewer.fullscreenFitScale s) ns)) := by
    calc min (BlurViewer.fullscreenFitScale s) BlurViewer.MAX_SCALE
        ≤ min (max (BlurViewer.fullscreenFitScale s) ns) BlurViewer.MAX_SCALE :=
          min_le_min (le_max_left _ _) le_rfl
      _ = min BlurViewer.MAX_SCALE (max (BlurViewer.fullscreenFitScale s) ns) :=
          min_comm _ _
      _ ≤ max BlurViewer.MIN_SCALE (min BlurViewer.MAX_SCALE
            (max (BlurViewer.fullscreenFitScale s) ns)) := le_max_right _ _
  exact key

/-- Witness for C4 (amended): fullscreen 100×100 image, request scale 0.01. -/
theorem C4_fullscreen_floor_amended_witness :
    min (BlurViewer.fullscreenFitScale
        { BlurViewer.base with pixmap := some ⟨100, 100⟩, is_fullscreen := true })
      BlurViewer.MAX_SCALE ≤
    (BlurViewer.zoom_to
        { BlurViewer.base with pixmap := some ⟨100, 100⟩, is_fullscreen := true }
        (1/100) none).target_scale :=
  C4_fullscreen_floor_amended _ (1/100) none (by decide) (by decide) (by decide)

/-- Counterexample to C4 as stated: a fullscreen 10×10 image has fullscreen fit
scale 108, yet requesting scale 0.01 yields target scale 20 < 108 because of the
MAX_SCALE clamp. -/
theorem C4_fullscreen_floor_counterexample :
    (BlurViewer.zoom_to bvTinyFS (1/100) none).target_scale = 20 ∧
    BlurViewer.fullscreenFitScale bvTinyFS = 108 ∧
    ¬ BlurViewer.fullscreenFitScale bvTinyFS ≤
        (BlurViewer.zoom_to bvTinyFS (1/100) none).target_scale := by
  refine ⟨by decide, by decide, by decide⟩

/-- C7 — Slide exclusivity: in both viewers, invoking `navigate_to_image` while
a slide is in progress is a complete no-op (state identity: index, progress,
direction, image references and load requests all unchanged). -/
theorem C7_slide_exclusivity (s : BlurViewer.State) (t : OptimizedImageViewer.State)
    (d e : ℤ) (hs : s.navigation_animation = true)
    (ht : t.navigation_animation = true) :
    BlurViewer.navigate_to_image s d = s ∧
    OptimizedImageViewer.navigate_to_image t e = t := by
  constructor
  · unfold BlurViewer.navigate_to_image
    rw [if_pos (Or.inr (Or.inr (by rw [hs])))]
  · unfold OptimizedImageViewer.navigate_to_image
    split
    · rfl
    · simp [ht]

/-- Witness for C7: both viewers mid-slide with a three-image directory. -/
theorem C7_slide_exclusivity_witness :
    BlurViewer.navigate_to_image bvNavBusy 1 = bvNavBusy ∧
    OptimizedImageViewer.navigate_to_image ovNavBusy 1 = ovNavBusy :=
  C7_slide_exclusivity bvNavBusy ovNavBusy 1 1 (by decide) (by decide)

/-- C9 — Closing is terminal and the exit request fires once: once the closing
animation has started, no sequence of modelled operations (including further
`close_application` calls and ticks) ever clears the flag or issues another
delayed exit request. -/
theorem C9_closing_terminal (s : BlurViewer.State) (h : s.closing_animation = true)
    (l : List BlurViewer.Op) :
    (BlurViewer.applyOps s l).closing_animation = true ∧
    (BlurViewer.applyOps s l).exit_requests = s.exit_requests := by
  unfold BlurViewer.applyOps
  induction l generalizing s with
  | nil => exact ⟨h, rfl⟩
  | cons op rest ih =>
      rw [List.foldl_cons]
      obtain ⟨h1, h2⟩ := BlurViewer.applyOp_closing s op h
      obtain ⟨h3, h4⟩ := ih (BlurViewer.applyOp s op) h1
      exact ⟨h3, h4.trans h2⟩

/-- Witness for C9: a closing viewer hit with another `close_application`, a
right-click, and two ticks. -/
theorem C9_closing_terminal_witness :
    (BlurViewer.applyOps bvClosing
        [BlurViewer.Op.closeApp, BlurViewer.Op.press ⟨0, 0⟩ .right,
         BlurViewer.Op.timerTick, BlurViewer.Op.timerTick]).closing_animation
      = true ∧
    (BlurViewer.applyOps bvClosing
        [BlurViewer.Op.closeApp, BlurViewer.Op.press ⟨0, 0⟩ .right,
         BlurViewer.Op.timerTick, BlurViewer.Op.timerTick]).exit_requests
      = bvClosing.exit_requests :=
  C9_closing_terminal bvClosing (by decide) _

/-! ### Friction-decay arithmetic (C5) -/

/-- The 0.85 decay is still above 1/100 after 28 steps. -/
theorem pow85_28_big : (1/100 : ℚ) < (17/20)^28 := by norm_num

/-- The 0.85 decay is at or below 1/100 after 29 steps. -/
theorem pow85_29_small : ((17:ℚ)/20)^29 ≤ 1/100 := by norm_num

/-- Below 29 steps the decayed velocity is still above the 0.1 epsilon. -/
theorem pow85_cond {n : ℕ} (hn : n ≤ 28) : (1/100 : ℚ) < (17/20)^n := by
  have hmono : ((17:ℚ)/20)^28 ≤ (17/20)^n :=
    pow_le_pow_of_le_one (by norm_num) (by norm_num) hn
  linarith [pow85_28_big]

/-- The velocity value frozen after 29 decay steps is below the epsilon on both
axes. -/
theorem smallVel_cond :
    ¬ ((1/10 : ℚ) < |(⟨10 * ((17:ℚ)/20)^29, 0⟩ : Pt).x| ∨
       (1/10 : ℚ) < |(⟨10 * ((17:ℚ)/20)^29, 0⟩ : Pt).y|) := by
  push_neg
  constructor
  · show |(10 * ((17:ℚ)/20)^29)| ≤ 1/10
    rw [abs_of_pos (by positivity)]
    linarith [pow85_29_small]
  · show |(0:ℚ)| ≤ 1/10
    norm_num

/-- For the first 29 ticks the `BlurViewer` velocity is exactly `10 · 0.85^n`
on the x axis. -/
theorem BlurViewer.velStep_pow : ∀ n, n ≤ 29 →
    BlurViewer.velStep^[n] (⟨10, 0⟩ : Pt) = ⟨10 * (17/20)^n, 0⟩ := by
  intro n
  induction n with
  | zero =>
      intro _
      show (⟨10, 0⟩ : Pt) = ⟨10 * (17/20)^0, 0⟩
      norm_num
  | succ n ih =>
      intro hn
      rw [Function.iterate_succ_apply', ih (by omega)]
      have hq := pow85_cond (n := n) (by omega)
      have hpos : (0:ℚ) < 10 * (17/20)^n := by positivity
      have hgt : (1/10 : ℚ) < |(10 * ((17:ℚ)/20)^n)| := by
        rw [abs_of_pos hpos]
        linarith
      unfold BlurViewer.velStep
      rw [if_pos (Or.inl hgt)]
      show (⟨BlurViewer.PAN_FRICTION * (10 * (17/20)^n),
            BlurViewer.PAN_FRICTION * 0⟩ : Pt) = ⟨10 * (17/20)^(n+1), 0⟩
      simp only [BlurViewer.PAN_FRICTION, Pt.mk.injEq]
      exact ⟨by ring, by ring⟩

/-- The sub-epsilon `BlurViewer` velocity after 29 decays is a fixpoint of its
velocity step: it is never zeroed. -/
theorem BlurViewer.velStep_fix29 : ∀ n,
    BlurViewer.velStep^[n] (⟨10 * ((17:ℚ)/20)^29, 0⟩ : Pt)
      = ⟨10 * ((17:ℚ)/20)^29, 0⟩ := by
  intro n
  induction n with
  | zero => rfl
  | succ n ih =>
      rw [Function.iterate_succ_apply', ih]
      unfold BlurViewer.velStep
      rw [if_neg smallVel_cond]

/-- From tick 29 on, the `BlurViewer` velocity stays frozen at the same nonzero
sub-epsilon value. -/
theorem BlurViewer.velStep_frozen {n : ℕ} (hn : 29 ≤ n) :
    BlurViewer.velStep^[n] (⟨10, 0⟩ : Pt) = ⟨10 * ((17:ℚ)/20)^29, 0⟩ := by
  obtain ⟨k, rfl⟩ : ∃ k, n = k + 29 := ⟨n - 29, by omega⟩
  rw [Function.iterate_add_apply, BlurViewer.velStep_pow 29 le_rfl,
      BlurViewer.velStep_fix29]

/-- For the first 29 ticks the optimized velocity is exactly `10 · 0.85^n` on
the x axis. -/
theorem OptimizedImageViewer.velStep_pow_ov : ∀ n, n ≤ 29 →
    OptimizedImageViewer.velStep^[n] (⟨10, 0⟩ : Pt) = ⟨10 * (17/20)^n, 0⟩ := by
  intro n
  induction n with
  | zero =>
      intro _
      show (⟨10, 0⟩ : Pt) = ⟨10 * (17/20)^0, 0⟩
      norm_num
  | succ n ih =>
      intro hn
      rw [Function.iterate_succ_apply', ih (by omega)]
      have hq := pow85_cond (n := n) (by omega)
      have hpos : (0:ℚ) < 10 * (17/20)^n := by positivity
      have hgt : (1/10 : ℚ) < |(10 * ((17:ℚ)/20)^n)| := by
        rw [abs_of_pos hpos]
        linarith
      unfold OptimizedImageViewer.velStep
      rw [if_pos (Or.inl hgt)]
      show (⟨(85/100) * (10 * (17/20)^n), (85/100) * 0⟩ : Pt)
        = ⟨10 * (17/20)^(n+1), 0⟩
      simp only [Pt.mk.injEq]
      exact ⟨by ring, by ring⟩

/-- Exact zero is an absorbing state of the optimized velocity step. -/
theorem OptimizedImageViewer.velStep_absorb : ∀ n,
    OptimizedImageViewer.velStep^[n] ptZero = ptZero := by
  intro n
  induction n with
  | zero => rfl
  | succ n ih =>
      rw [Function.iterate_succ_apply', ih]
      unfold OptimizedImageViewer.velStep
      rw [if_neg (by norm_num [ptZero])]

/-- The optimized velocity step snaps the sub-epsilon value after 29 decays to
exactly zero. -/
theorem OptimizedImageViewer.velStep_snap :
    OptimizedImageViewer.velStep (⟨10 * ((17:ℚ)/20)^29, 0⟩ : Pt) = ptZero := by
  unfold OptimizedImageViewer.velStep
  rw [if_neg smallVel_cond]

/-- From tick 30 on, the optimized velocity is exactly zero. -/
theorem OptimizedImageViewer.velStep_past {n : ℕ} (hn : 30 ≤ n) :
    OptimizedImageViewer.velStep^[n] (⟨10, 0⟩ : Pt) = ptZero := by
  obtain ⟨k, rfl⟩ : ∃ k, n = k + 30 := ⟨n - 30, by omega⟩
  rw [Function.iterate_add_apply,
      show (30:ℕ) = 1 + 29 from rfl, Function.iterate_add_apply,
      OptimizedImageViewer.velStep_pow_ov 29 le_rfl, Function.iterate_one,
      OptimizedImageViewer.velStep_snap, OptimizedImageViewer.velStep_absorb]

/-- C3 (amended) — Convergence termination with exact snap holds for the
optimized viewer: from any state, within a bounded number of ticks the current
scale becomes exactly equal to the (unchanged) target scale, and a fully
converged state is a fixpoint of the tick that requests no repaint.  (The
original claim fails for `BlurViewer.py`, whose decay filter has no exact snap;
see the counterexample.) -/
theorem C3_convergence_snap_amended :
    (∀ s : OptimizedImageViewer.State, ∃ N, ∀ n, N ≤ n →
      (OptimizedImageViewer.tick^[n] s).current_scale
        = (OptimizedImageViewer.tick^[n] s).target_scale ∧
      (OptimizedImageViewer.tick^[n] s).target_scale = s.target_scale) ∧
    (∀ s : OptimizedImageViewer.State, OptimizedImageViewer.Converged s →
      OptimizedImageViewer.animate s = (s, false)) := by
  constructor
  · intro s
    obtain ⟨N, hN⟩ := OptimizedImageViewer.scaleDiffStep_eventually_zero
      (s.target_scale - s.current_scale)
    refine ⟨N, fun n hn => ⟨?_, OptimizedImageViewer.tick_target_scale_iter s n⟩⟩
    have h := OptimizedImageViewer.tick_scale_diff_iter s n
    rw [hN n hn] at h
    linarith
  · exact OptimizedImageViewer.animate_conv

/-- Counterexample to C3 as stated: the idle `BlurViewer` state whose scale
residual is 1/2000 (inside the 0.001 epsilon) is a fixpoint of the tick — the
current scale never reaches the target exactly, on this tick or any later one
(shown here for 1000 ticks). -/
theorem C3_convergence_snap_counterexample :
    bvStuck.target_scale - bvStuck.current_scale = 1/2000 ∧
    BlurViewer.animate bvStuck = (bvStuck, false) ∧
    BlurViewer.tick^[1000] bvStuck = bvStuck := by
  have hfix : BlurViewer.animate bvStuck = (bvStuck, false) := by decide
  have htick : ∀ n, BlurViewer.tick^[n] bvStuck = bvStuck := by
    intro n
    induction n with
    | zero => rfl
    | succ n ih =>
        rw [Function.iterate_succ_apply', ih,
            show BlurViewer.tick bvStuck = (BlurViewer.animate bvStuck).1 from rfl,
            hfix]
  exact ⟨by decide, hfix, htick 1000⟩

/-- C5 (amended) — Inertia decay with snap, for the optimized viewer: starting
from pan velocity (10, 0) while not panning, the velocity is exactly
`(10 · 0.85^n, 0)` for the first 29 ticks, is exactly zero from tick 30 on
(absorbing), and the target offset is incremented by the velocity exactly on
the ticks where the velocity is above the 0.1 epsilon.  (The original claim's
snap-to-zero clause fails for `BlurViewer.py`; see the counterexample.) -/
theorem C5_inertia_decay_amended :
    (∀ n, n ≤ 29 →
      (OptimizedImageViewer.tick^[n] ovInertia).pan_velocity
        = ⟨10 * (17/20)^n, 0⟩) ∧
    (∀ n, 30 ≤ n →
      (OptimizedImageViewer.tick^[n] ovInertia).pan_velocity = ptZero) ∧
    (∀ n, n ≤ 28 →
      (OptimizedImageViewer.tick^[n + 1] ovInertia).target_offset =
        ptAdd (OptimizedImageViewer.tick^[n] ovInertia).target_offset
          (OptimizedImageViewer.tick^[n] ovInertia).pan_velocity) ∧
    (∀ n, 29 ≤ n →
      (OptimizedImageViewer.tick^[n + 1] ovInertia).target_offset =
        (OptimizedImageViewer.tick^[n] ovInertia).target_offset) := by
  have hbase : ovInertia.is_panning = false := rfl
  have hiter := fun n => OptimizedImageViewer.tick_velocity_iter_ov ovInertia hbase n
  refine ⟨?_, ?_, ?_, ?_⟩
  · intro n hn
    rw [(hiter n).1]
    exact OptimizedImageViewer.velStep_pow_ov n hn
  · intro n hn
    rw [(hiter n).1]
    exact OptimizedImageViewer.velStep_past hn
  · intro n hn
    have hvel : (OptimizedImageViewer.tick^[n] ovInertia).pan_velocity
        = ⟨10 * ((17:ℚ)/20)^n, 0⟩ := by
      rw [(hiter n).1]
      exact OptimizedImageViewer.velStep_pow_ov n (by omega)
    rw [Function.iterate_succ_apply',
        show OptimizedImageViewer.tick (OptimizedImageViewer.tick^[n] ovInertia)
          = (OptimizedImageViewer.animate (OptimizedImageViewer.tick^[n] ovInertia)).1
          from rfl,
        OptimizedImageViewer.animate_target_offset, (hiter n).2, if_pos rfl, hvel]
    have hq := pow85_cond (n := n) hn
    have hpos : (0:ℚ) < 10 * (17/20)^n := by positivity
    have hgt : (1/10 : ℚ) < |(⟨10 * ((17:ℚ)/20)^n, 0⟩ : Pt).x| := by
      show (1/10 : ℚ) < |(10 * ((17:ℚ)/20)^n)|
      rw [abs_of_pos hpos]
      linarith
    rw [if_pos (Or.inl hgt)]
  · intro n hn
    rw [Function.iterate_succ_apply',
        show OptimizedImageViewer.tick (OptimizedImageViewer.tick^[n] ovInertia)
          = (OptimizedImageViewer.animate (OptimizedImageViewer.tick^[n] ovInertia)).1
          from rfl,
        OptimizedImageViewer.animate_target_offset, (hiter n).2, if_pos rfl]
    rcases Nat.lt_or_ge n 30 with h30 | h30
    · have hn29 : n = 29 := by omega
      subst hn29
      have hvel : (OptimizedImageViewer.tick^[29] ovInertia).pan_velocity
          = ⟨10 * ((17:ℚ)/20)^29, 0⟩ := by
        rw [(hiter 29).1]
        exact OptimizedImageViewer.velStep_pow_ov 29 le_rfl
      rw [hvel, if_neg smallVel_cond]
    · have hvel : (OptimizedImageViewer.tick^[n] ovInertia).pan_velocity
          = ptZero := by
        rw [(hiter n).1]
        exact OptimizedImageViewer.velStep_past h30
      rw [hvel, if_neg (by norm_num [ptZero])]

/-- Counterexample to C5 as stated: in `BlurViewer.py` the velocity decayed for
29 ticks sits strictly between 0 and the 0.1 epsilon, and it is still exactly
that nonzero value at tick 100 — it is never snapped to zero. -/
theorem C5_inertia_decay_counterexample :
    (BlurViewer.tick^[29] bvInertia).pan_velocity = ⟨10 * ((17:ℚ)/20)^29, 0⟩ ∧
    (BlurViewer.tick^[100] bvInertia).pan_velocity = ⟨10 * ((17:ℚ)/20)^29, 0⟩ ∧
    (0:ℚ) < 10 * ((17:ℚ)/20)^29 ∧ 10 * ((17:ℚ)/20)^29 < 1/10 := by
  have hbase : bvInertia.is_panning = false := rfl
  refine ⟨?_, ?_, by positivity, by norm_num⟩
  · rw [(BlurViewer.tick_velocity_iter bvInertia hbase 29).1]
    exact BlurViewer.velStep_frozen le_rfl
  · rw [(BlurViewer.tick_velocity_iter bvInertia hbase 100).1]
    exact BlurViewer.velStep_frozen (by omega)

/-- C6 (amended) — Pan drag with zero total delta: a full drag gesture (left
press inside the image, moves whose deltas sum to zero, left release) restores
`current_offset` to its pre-drag value and ends with panning off, but the pan
velocity ends at 0.6 times the final move's delta — not necessarily zero.
(The original claim's `velocity == 0` clause fails; see the counterexample.) -/
theorem C6_pan_idempotence_amended (s : BlurViewer.State) (p0 : Pt) (ps : List Pt)
    (hin : BlurViewer.point_in_image s p0 = true)
    (hsum : ptSum (BlurViewer.dragDeltas p0 ps) = ptZero) :
    (BlurViewer.processDrag s p0 ps).current_offset = s.current_offset ∧
    (BlurViewer.processDrag s p0 ps).is_panning = false ∧
    (BlurViewer.processDrag s p0 ps).pan_velocity =
      (if ps = [] then ptZero
       else ptScale (6/10) (BlurViewer.lastDelta p0 ps)) := by
  unfold BlurViewer.processDrag
  rw [BlurViewer.mousePressEvent_in s p0 hin]
  obtain ⟨h1, h2, h3, h4⟩ := BlurViewer.movesFold ps
    { s with is_panning := true, last_mouse_pos := p0, pan_velocity := ptZero } rfl
  refine ⟨?_, rfl, ?_⟩
  · show (ps.foldl BlurViewer.mouseMoveEvent
      { s with is_panning := true, last_mouse_pos := p0,
               pan_velocity := ptZero }).current_offset = s.current_offset
    rw [h1]
    show ptAdd s.current_offset (ptSum (BlurViewer.dragDeltas p0 ps))
      = s.current_offset
    rw [hsum, ptAdd_zero]
  · show (ps.foldl BlurViewer.mouseMoveEvent
      { s with is_panning := true, last_mouse_pos := p0,
               pan_velocity := ptZero }).pan_velocity = _
    rw [h2]

/-- Witness for C6 (amended): on the 100×100 image, press at the origin, move
right by 1 and back, release. -/
theorem C6_pan_idempotence_amended_witness :
    (BlurViewer.processDrag bvImage ⟨0, 0⟩ [⟨1, 0⟩, ⟨0, 0⟩]).current_offset
      = bvImage.current_offset ∧
    (BlurViewer.processDrag bvImage ⟨0, 0⟩ [⟨1, 0⟩, ⟨0, 0⟩]).is_panning = false ∧
    (BlurViewer.processDrag bvImage ⟨0, 0⟩ [⟨1, 0⟩, ⟨0, 0⟩]).pan_velocity =
      (if ([⟨1, 0⟩, ⟨0, 0⟩] : List Pt) = [] then ptZero
       else ptScale (6/10) (BlurViewer.lastDelta ⟨0, 0⟩ [⟨1, 0⟩, ⟨0, 0⟩])) :=
  C6_pan_idempotence_amended bvImage ⟨0, 0⟩ [⟨1, 0⟩, ⟨0, 0⟩] (by decide) (by decide)

/-- Counterexample to C6 as stated: the same zero-total-delta drag leaves the
offset unchanged but ends with pan velocity (−3/5, 0), which is not zero. -/
theorem C6_pan_idempotence_counterexample :
    ptSum (BlurViewer.dragDeltas ⟨0, 0⟩ [⟨1, 0⟩, ⟨0, 0⟩]) = ptZero ∧
    (BlurViewer.processDrag bvImage ⟨0, 0⟩ [⟨1, 0⟩, ⟨0, 0⟩]).current_offset
      = bvImage.current_offset ∧
    (BlurViewer.processDrag bvImage ⟨0, 0⟩ [⟨1, 0⟩, ⟨0, 0⟩]).pan_velocity
      = ⟨-(3/5), 0⟩ ∧
    ¬ (BlurViewer.processDrag bvImage ⟨0, 0⟩ [⟨1, 0⟩, ⟨0, 0⟩]).pan_velocity
      = ptZero := by
  refine ⟨by decide, by decide, by decide, by decide⟩

/-- C8 (amended) — Background fade against slides, in the optimized viewer: on
a tick where a slide is in progress and does not complete, the background
opacity is untouched; on a tick with no slide in progress it follows the decay
filter toward the target with an exact snap inside the 1.0 epsilon.  (The
original claim fails for `BlurViewer.py`, whose fade is not guarded by the
slide flag; see the counterexample.) -/
theorem C8_background_fade_amended :
    (∀ s : OptimizedImageViewer.State, s.navigation_animation = true →
      ¬ (1 : ℚ) ≤ s.navigation_progress + 1/10 →
      (OptimizedImageViewer.animate s).1.background_opacity
        = s.background_opacity) ∧
    (∀ s : OptimizedImageViewer.State, s.navigation_animation = false →
      (OptimizedImageViewer.animate s).1.background_opacity =
        (if 1 < |s.target_background_opacity - s.background_opacity| then
          s.background_opacity
            + (s.target_background_opacity - s.background_opacity) * (2/10)
        else s.target_background_opacity)) :=
  ⟨OptimizedImageViewer.animate_bg_nav, OptimizedImageViewer.animate_bg_fade⟩

/-- Counterexample to C8 as stated: a `BlurViewer` tick taken mid-slide (slide
still in progress afterwards) advances the background opacity from 0 to 30. -/
theorem C8_background_fade_counterexample :
    bvNavBg.navigation_animation = true ∧
    bvNavBg.background_opacity = 0 ∧
    (BlurViewer.tick bvNavBg).navigation_animation = true ∧
    (BlurViewer.tick bvNavBg).background_opacity = 30 := by
  refine ⟨rfl, rfl, by decide, by decide⟩

/-- C10 — The LRU cache invariant: after any run of `get`/`put` operations from
an empty cache of positive capacity, the dict never exceeds `max_size`;
`access_order` is duplicate-free and holds exactly the dict's keys; a `get`
returns `None` on an absent key and otherwise the value most recently `put`
for that key; and a `put` that evicts (fresh key, full dict) removes exactly
the front of `access_order`, which is the least recently touched key among all
cached keys. -/
theorem C10_lru_cache_invariant (α : Type) (maxSize : ℕ) (hm : 1 ≤ maxSize)
    (ops : List (CacheOp α)) :
    (runCache α maxSize ops).cache.length ≤ maxSize ∧
    (runCache α maxSize ops).access_order.Nodup ∧
    ((runCache α maxSize ops).cache.map Prod.fst).Perm
      (runCache α maxSize ops).access_order ∧
    (∀ k, assocLookup (runCache α maxSize ops).cache k = none →
      ((runCache α maxSize ops).get k).1 = none) ∧
    (∀ k v, ((runCache α maxSize ops).get k).1 = some v →
      lastPut ops k = some v) ∧
    (∀ k v lru rest,
      (assocLookup (runCache α maxSize ops).cache k).isSome = false →
      maxSize ≤ (runCache α maxSize ops).cache.length →
      (runCache α maxSize ops).access_order = lru :: rest →
      (runCache α maxSize ops).put k v =
        { runCache α maxSize ops with
          cache := assocErase (runCache α maxSize ops).cache lru ++ [(k, v)],
          access_order := rest ++ [k] } ∧
      (∀ a ∈ (runCache α maxSize ops).access_order,
        touchIdx (touchMap α maxSize ops) lru
          ≤ touchIdx (touchMap α maxSize ops) a)) := by
  have hinv := cacheInv_run (α := α) maxSize hm ops
  rw [annRun_fst] at hinv
  refine ⟨?_, hinv.nodup, hinv.perm, ?_, ?_, ?_⟩
  · have h1 := hinv.size
    rw [runCache_max_size] at h1
    exact h1
  · intro k hk
    unfold ImageCache.get
    rw [hk]
  · intro k v h
    have hl : assocLookup (runCache α maxSize ops).cache k = some v := by
      unfold ImageCache.get at h
      cases hcl : assocLookup (runCache α maxSize ops).cache k with
      | none => rw [hcl] at h; exact absurd h (by simp)
      | some w => rw [hcl] at h; exact h
    exact lastPut_sound maxSize ops k v hl
  · intro k v lru rest hmiss hfull ho
    constructor
    · exact put_of_evict v hmiss (by rw [runCache_max_size]; exact hfull) ho
    · have hs := hinv.sorted
      rw [ho] at hs
      have hpair := (List.pairwise_cons.mp hs).1
      intro a ha
      rw [ho] at ha
      rcases List.mem_cons.mp ha with rfl | hmem
      · exact le_refl _
      · exact le_of_lt (hpair a hmem)

/-- Witness for C10: capacity 1, a single put of value 5 at key 0. -/
theorem C10_lru_cache_invariant_witness :
    (runCache ℕ 1 [CacheOp.put 0 5]).cache.length ≤ 1 ∧
    (runCache ℕ 1 [CacheOp.put 0 5]).access_order.Nodup ∧
    ((runCache ℕ 1 [CacheOp.put 0 5]).cache.map Prod.fst).Perm
      (runCache ℕ 1 [CacheOp.put 0 5]).access_order ∧
    (∀ k, assocLookup (runCache ℕ 1 [CacheOp.put 0 5]).cache k = none →
      ((runCache ℕ 1 [CacheOp.put 0 5]).get k).1 = none) ∧
    (∀ k v, ((runCache ℕ 1 [CacheOp.put 0 5]).get k).1 = some v →
      lastPut [CacheOp.put 0 5] k = some v) ∧
    (∀ k v lru rest,
      (assocLookup (runCache ℕ 1 [CacheOp.put 0 5]).cache k).isSome = false →
      1 ≤ (runCache ℕ 1 [CacheOp.put 0 5]).cache.length →
      (runCache ℕ 1 [CacheOp.put 0 5]).access_order = lru :: rest →
      (runCache ℕ 1 [CacheOp.put 0 5]).put k v =
        { runCache ℕ 1 [CacheOp.put 0 5] with
          cache := assocErase (runCache ℕ 1 [CacheOp.put 0 5]).cache lru ++ [(k, v)],
          access_order := rest ++ [k] } ∧
      (∀ a ∈ (runCache ℕ 1 [CacheOp.put 0 5]).access_order,
        touchIdx (touchMap ℕ 1 [CacheOp.put 0 5]) lru
          ≤ touchIdx (touchMap ℕ 1 [CacheOp.put 0 5]) a)) :=
  C10_lru_cache_invariant ℕ 1 (by decide) [CacheOp.put 0 5]

end

end BlurSpec
